import Mathlib

/-!
Verification development for the ultra-servarr-bootstrap repository.

The Python sources under scripts/ are shallowly embedded as executable Lean
definitions: JSON scalar values become the inductive `Val`, Python dicts
become association lists with last-write-wins lookup, each reconciler
becomes a pure function from the resolved configuration and the fetched
remote state to the pair (list of change strings, list of write operations),
and the HTTP retry loop becomes a function over the list of per-attempt
results.
-/

/-- A JSON scalar value as it appears in configuration maps, preference
maps and download-client field lists (string, integer or boolean). -/
inductive Val
  | s (v : String)
  | i (v : Int)
  | b (v : Bool)
deriving DecidableEq, Repr

/-- Python str() of a scalar, as used by f-string interpolation in change
messages (bools print as True and False). -/
def pyStr : Val → String
  | .s v => v
  | .i v => toString v
  | .b true => "True"
  | .b false => "False"

/-- Lookup in an association list with the semantics of a Python dict in
which later bindings overwrite earlier ones (last write wins). -/
def dictLookup {α : Type} (m : List (String × α)) (k : String) : Option α :=
  (m.reverse.find? (fun e => e.1 == k)).map (fun e => e.2)

/-- Python membership test `k in d` for the dict model. -/
def hasKey {α : Type} (m : List (String × α)) (k : String) : Bool :=
  m.any (fun e => e.1 == k)

/-- First-match lookup, for association lists whose keys are unique by
construction (Python dict literals). -/
def listLookup {α : Type} (m : List (String × α)) (k : String) : Option α :=
  (m.find? (fun e => e.1 == k)).map (fun e => e.2)

/-- One name/value entry of a Servarr `fields` array. -/
structure DCField where
  name : String
  value : Val
deriving DecidableEq, Repr

/-- Embeds the dict comprehension `{f["name"]: f["value"] for f in fields}`
followed by `.get(key)`: the last entry with a given name wins. -/
def fieldLookup (fs : List DCField) (k : String) : Option Val :=
  (fs.reverse.find? (fun f => f.name == k)).map (fun f => f.value)

/-- Python title() for ASCII strings: a letter is uppercased when the
previous character is not a letter, lowercased otherwise. -/
def pyTitleGo : List Char → Bool → List Char
  | [], _ => []
  | c :: cs, prevAlpha =>
    (if c.isAlpha then (if prevAlpha then c.toLower else c.toUpper) else c)
      :: pyTitleGo cs c.isAlpha

/-- Python str.title() (ASCII). -/
def pyTitle (s : String) : String := ⟨pyTitleGo s.data false⟩

/-- Python str.lower() (ASCII), list-based so that it evaluates in the
kernel. -/
def pyLower (s : String) : String := ⟨s.data.map Char.toLower⟩

/-- Replacement loop for `pyReplace`, with the character count as
structural fuel: replace each non-overlapping occurrence of `old` from the
left, as Python str.replace does for a non-empty pattern (the sources only
replace the non-empty pattern "2"). -/
def pyReplaceGo (old new : List Char) : Nat → List Char → List Char
  | 0, s => s
  | Nat.succ fuel, s =>
    match s with
    | [] => []
    | c :: cs =>
      if !old.isEmpty && old.isPrefixOf s then
        new ++ pyReplaceGo old new fuel (s.drop old.length)
      else c :: pyReplaceGo old new fuel cs

/-- Python str.replace for a non-empty pattern. -/
def pyReplace (s old new : String) : String :=
  ⟨pyReplaceGo old.data new.data s.data.length s.data⟩

/-! ## HTTP retry loop (scripts/lib/api_client.py, `_BaseClient._request`) -/

/-- Retry settings from api_client.py. -/
def MAX_RETRIES : Nat := 3

/-- Backoff base in seconds from api_client.py. -/
def BACKOFF_BASE : Nat := 2

/-- The visible result of one call to `session.request`: a connection-level
failure or an HTTP response with a status code and a body. -/
inductive AttemptResult
  | connError
  | status (code : Nat) (body : String)
deriving DecidableEq, Repr

/-- The error carried by a raised exception in the retry loop. -/
inductive ReqError
  | connError
  | httpError (code : Nat)
deriving DecidableEq, Repr

/-- Classification performed by the body of the retry loop: a status of 500
or above raises HTTPError explicitly; `raise_for_status` raises HTTPError
for any 4xx as well, and both are caught by the same `except` clause, so
every status of 400 or above is a retryable failure in the code as written.
Statuses below 400 return the response. -/
def classifyAttempt : AttemptResult → Except ReqError String
  | .connError => .error .connError
  | .status code body => if code >= 400 then .error (.httpError code) else .ok body

instance {ε α : Type} [DecidableEq ε] [DecidableEq α] : DecidableEq (Except ε α) :=
  fun x y =>
    match x, y with
    | .ok a, .ok b =>
      if h : a = b then isTrue (by rw [h]) else isFalse (by intro hc; cases hc; exact h rfl)
    | .error a, .error b =>
      if h : a = b then isTrue (by rw [h]) else isFalse (by intro hc; cases hc; exact h rfl)
    | .ok _, .error _ => isFalse (by intro hc; cases hc)
    | .error _, .ok _ => isFalse (by intro hc; cases hc)

/-- Outcome of `_request`: the final result, the number of attempts that
were executed, and the list of backoff waits (in seconds) that were slept. -/
structure ReqOutcome where
  result : Except ReqError String
  attemptsUsed : Nat
  waits : List Nat
deriving DecidableEq, Repr

/-- The retry loop of `_request`, over the list of per-attempt results.
`attempt` counts from 1 as in `range(1, MAX_RETRIES + 1)`; on a failure
before the final attempt the loop sleeps `BACKOFF_BASE ** attempt` seconds
and retries; on the final attempt the error propagates. An exhausted list
models the unreachable RuntimeError line. -/
def requestGo : List AttemptResult → Nat → List Nat → ReqOutcome
  | [], attempt, waits => ⟨.error .connError, attempt - 1, waits⟩
  | o :: rest, attempt, waits =>
    match classifyAttempt o with
    | .ok body => ⟨.ok body, attempt, waits⟩
    | .error e =>
      if attempt == MAX_RETRIES then ⟨.error e, attempt, waits⟩
      else requestGo rest (attempt + 1) (waits ++ [BACKOFF_BASE ^ attempt])

/-- Embeds `_BaseClient._request`: run the retry loop from attempt 1. -/
def _request (outcomes : List AttemptResult) : ReqOutcome :=
  requestGo outcomes 1 []

/-! ## Dry-run client behaviour (scripts/lib/api_client.py, `_BaseClient`) -/

/-- HTTP method of a network event. -/
inductive Method
  | GET
  | POST
  | PUT
  | DELETE
deriving DecidableEq, Repr

/-- A network request actually issued on the wire. -/
structure NetEvent where
  method : Method
  path : String
deriving DecidableEq, Repr

/-- The dry-run flag of `_BaseClient`. -/
structure BaseClient where
  dryRun : Bool
deriving DecidableEq, Repr

/-- Embeds `_BaseClient.get`: a GET always executes, even in dry-run, and
returns the decoded body supplied by the network oracle `net`. -/
def BaseClient.get (_c : BaseClient) (net : Method → String → String) (path : String) :
    String × List NetEvent :=
  (net .GET path, [⟨.GET, path⟩])

/-- Embeds `_BaseClient.post`: in dry-run no network call is made and the
no-op sentinel None is returned; otherwise the request executes. -/
def BaseClient.post (c : BaseClient) (net : Method → String → String) (path : String) :
    Option String × List NetEvent :=
  if c.dryRun then (none, []) else (some (net .POST path), [⟨.POST, path⟩])

/-- Embeds `_BaseClient.put`. -/
def BaseClient.put (c : BaseClient) (net : Method → String → String) (path : String) :
    Option String × List NetEvent :=
  if c.dryRun then (none, []) else (some (net .PUT path), [⟨.PUT, path⟩])

/-- Embeds `_BaseClient.delete`. -/
def BaseClient.delete (c : BaseClient) (net : Method → String → String) (path : String) :
    Option String × List NetEvent :=
  if c.dryRun then (none, []) else (some (net .DELETE path), [⟨.DELETE, path⟩])

/-! ## qBittorrent session client (scripts/lib/api_client.py, `QbitClient`) -/

/-- The mutable state of a `QbitClient`: the dry-run flag and whether the
session has authenticated. -/
structure QbitClientState where
  dryRun : Bool
  authenticated : Bool
deriving DecidableEq, Repr

/-- Embeds `QbitClient.login`: the login POST goes through `_request`
directly, so it executes even in dry-run; if the response body is not
exactly "Ok." a RuntimeError is raised, otherwise the session is marked
authenticated. The returned event list is what reached the network. -/
def QbitClientState.login (c : QbitClientState) (loginBody : String) :
    Except String QbitClientState × List NetEvent :=
  ((if loginBody == "Ok." then .ok { c with authenticated := true }
    else .error ("qBittorrent login failed: " ++ loginBody)),
   [⟨.POST, "api/v2/auth/login"⟩])

/-- Embeds `QbitClient.get`: an unauthenticated client first logs in
(lazily), then performs the GET. -/
def QbitClientState.get (c : QbitClientState) (loginBody : String)
    (net : Method → String → String) (path : String) :
    Except String String × List NetEvent :=
  if c.authenticated then (.ok (net .GET path), [⟨.GET, path⟩])
  else
    match c.login loginBody with
    | (.error e, evs) => (.error e, evs)
    | (.ok _, evs) => (.ok (net .GET path), evs ++ [⟨.GET, path⟩])

/-- Embeds `QbitClient.post`: an unauthenticated client first logs in
unless the path is the login endpoint itself; the POST proper then goes
through the dry-run gate of `_BaseClient.post`. -/
def QbitClientState.post (c : QbitClientState) (loginBody : String)
    (net : Method → String → String) (path : String) :
    Except String (Option String) × List NetEvent :=
  if !c.authenticated && path != "api/v2/auth/login" then
    match c.login loginBody with
    | (.error e, evs) => (.error e, evs)
    | (.ok c2, evs) =>
      let r := BaseClient.post ⟨c2.dryRun⟩ net path
      (.ok r.1, evs ++ r.2)
  else
    let r := BaseClient.post ⟨c.dryRun⟩ net path
    (.ok r.1, r.2)

/-! ## Resolved configuration (scripts/lib/config_loader.py) -/

/-- The resolved qbittorrent sub-record of the configuration. -/
structure QbitCfg where
  url : String
  username : String
  password : String
  defaultSavePath : String
  preferences : List (String × Val)
  categories : List (String × Option String)
deriving DecidableEq, Repr

/-- A resolved entry of `config["instances"]`. Optional keys accessed via
`.get` in the sources are Option fields; `root_folder` is resolved to an
absolute path by the loader. -/
structure InstanceCfg where
  url : String
  apiKey : String
  ty : String
  appPath : String
  rootFolder : String
  category : Option String
  libraries : Option (List (String × String × String))
deriving DecidableEq, Repr

/-- The `media_management` section, each key optional with the default
applied at the use site as in the sources. -/
structure MMCfg where
  hardlinks : Option Bool
  analyzeVideo : Option Bool
  propersAndRepacks : Option String
deriving DecidableEq, Repr

/-- The fully resolved configuration dict produced by `load_config`. -/
structure Config where
  username : String
  servername : String
  homeDir : String
  qbittorrent : QbitCfg
  mediaManagement : MMCfg
  tags : List (String × List String)
  instances : List (String × InstanceCfg)
deriving DecidableEq, Repr

/-! ## qBittorrent reconciler (scripts/services/qbittorrent.py) -/

/-- `_PREF_MAP`: config key to qBittorrent API preference key. -/
def _PREF_MAP : List (String × String) :=
  [("torrent_management_mode", "auto_tmm_enabled"),
   ("torrent_content_layout", "torrent_content_layout"),
   ("relocate_on_category_change", "torrent_changed_tmm_enabled"),
   ("relocate_on_default_save_path_change", "save_path_changed_tmm_enabled")]

/-- `_VALUE_MAP` application: `_VALUE_MAP[config_key].get(v, v)` translates
the tri-state torrent_management_mode to a boolean flag and leaves every
other value unchanged. -/
def translatePref (configKey : String) (v : Val) : Val :=
  if configKey == "torrent_management_mode" then
    match v with
    | .s "automatic" => .b true
    | .s "manual" => .b false
    | _ => v
  else v

/-- A mutation issued by the qBittorrent reconciler. -/
inductive QbitWrite
  | setPreferences (updates : List (String × Val))
  | createCategory (category savePath : String)
  | editCategory (category savePath : String)
deriving DecidableEq, Repr

/-- The body of the mapped-preferences loop in `_set_preferences`: skip a
config key that is absent from the desired preferences, translate the
value, and record a change and an update entry when the current value
differs. -/
def prefStep (q : QbitCfg) (current : List (String × Val))
    (acc : List String × List (String × Val)) (ckak : String × String) :
    List String × List (String × Val) :=
  match dictLookup q.preferences ckak.1 with
  | none => acc
  | some v0 =>
    let v := translatePref ckak.1 v0
    if dictLookup current ckak.2 == some v then acc
    else (acc.1 ++ ["Set " ++ ckak.2 ++ ": " ++ pyStr v], acc.2 ++ [(ckak.2, v)])

/-- Embeds `_set_preferences`: check the default save path, then the mapped
preferences, and issue a single batched setPreferences POST when any update
was collected. Returns (changes, writes). -/
def _set_preferences (q : QbitCfg) (current : List (String × Val)) :
    List String × List QbitWrite :=
  let init :=
    if dictLookup current "save_path" == some (Val.s q.defaultSavePath) then
      (([] : List String), ([] : List (String × Val)))
    else (["Set default save path: " ++ q.defaultSavePath],
          [("save_path", Val.s q.defaultSavePath)])
  let r := _PREF_MAP.foldl (prefStep q current) init
  if r.2.isEmpty then (r.1, []) else (r.1, [.setPreferences r.2])

/-- The body of the categories loop in `_set_categories`: create a missing
category, correct a category whose savePath differs, otherwise no-op. A
fetched category record is (name, optional savePath field). -/
def catStep (currentCats : List (String × Option String))
    (acc : List String × List QbitWrite) (cat : String × Option String) :
    List String × List QbitWrite :=
  let desiredPath := cat.2.getD cat.1
  if !hasKey currentCats cat.1 then
    (acc.1 ++ ["Created category: " ++ cat.1 ++ " (path: " ++ desiredPath ++ ")"],
     acc.2 ++ [.createCategory cat.1 desiredPath])
  else if !((dictLookup currentCats cat.1).join == some desiredPath) then
    (acc.1 ++ ["Updated category " ++ cat.1 ++ " path: " ++ desiredPath],
     acc.2 ++ [.editCategory cat.1 desiredPath])
  else acc

/-- Embeds `_set_categories`. -/
def _set_categories (q : QbitCfg) (currentCats : List (String × Option String)) :
    List String × List QbitWrite :=
  q.categories.foldl (catStep currentCats) ([], [])

/-- The remote state fetched by the qBittorrent reconciler: the global
preference map and the category map (category name to optional savePath). -/
structure QbitState where
  prefs : List (String × Val)
  categories : List (String × Option String)
deriving DecidableEq, Repr

/-- Embeds `configure_qbittorrent` (after the unconditional login):
preferences first, then categories; change lists concatenate. -/
def configure_qbittorrent (cfg : Config) (st : QbitState) :
    List String × List QbitWrite :=
  let p := _set_preferences cfg.qbittorrent st.prefs
  let c := _set_categories cfg.qbittorrent st.categories
  (p.1 ++ c.1, p.2 ++ c.2)

/-- The network path of each qBittorrent write. -/
def qbitWriteEvent : QbitWrite → NetEvent
  | .setPreferences _ => ⟨.POST, "api/v2/app/setPreferences"⟩
  | .createCategory _ _ => ⟨.POST, "api/v2/torrents/createCategory"⟩
  | .editCategory _ _ => ⟨.POST, "api/v2/torrents/editCategory"⟩

/-- Writes that actually reach the network: each write goes through the
dry-run gate of `_BaseClient.post`, so in dry-run nothing is emitted. -/
def emittedWrites {α : Type} (dryRun : Bool) (ws : List α) : List α :=
  if dryRun then [] else ws

/-- The full network trace of `configure_qbittorrent`: the unconditional
`client.login()` POST (issued through `_request`, bypassing the dry-run
gate), then, when login succeeded, the preference GET, the gated
preference writes, the category GET and the gated category writes. -/
def configure_qbittorrent_trace (dryRun : Bool) (cfg : Config) (st : QbitState)
    (loginBody : String) : List NetEvent :=
  [⟨.POST, "api/v2/auth/login"⟩] ++
  (if loginBody == "Ok." then
    [⟨.GET, "api/v2/app/preferences"⟩] ++
    emittedWrites dryRun ((_set_preferences cfg.qbittorrent st.prefs).2.map qbitWriteEvent) ++
    [⟨.GET, "api/v2/torrents/categories"⟩] ++
    emittedWrites dryRun ((_set_categories cfg.qbittorrent st.categories).2.map qbitWriteEvent)
  else [])

/-! ## Sonarr/Radarr reconciler (scripts/services/radarr.py)

The Radarr module states that Sonarr shares the same logic with
`tvCategory` in place of `movieCategory`; the shared algorithm is embedded
once, parameterised by the category field name, and instantiated for each
service below. -/

/-- A download-client entry fetched from `api/v3/downloadclient`. -/
structure DownloadClient where
  id : Nat
  implementation : String
  fields : List DCField
deriving DecidableEq, Repr

/-- The download-client JSON payload built by
`_build_download_client_payload`; `id` is set only for the update call. -/
structure DCPayload where
  name : String
  implementation : String
  configContract : String
  enable : Bool
  protocol : String
  fields : List DCField
  id : Option Nat := none
deriving DecidableEq, Repr

/-- A mutation issued by the Sonarr/Radarr reconciler. -/
inductive ArrWrite
  | postRootFolder (path : String)
  | postDownloadClient (p : DCPayload)
  | putDownloadClient (id : Nat) (p : DCPayload)
  | putMediaManagement (payload : List (String × Val))
  | postTag (label : String)
deriving DecidableEq, Repr

/-- The `expected_fields` dict of `_ensure_download_client`, in insertion
order; `catKey` is `movieCategory` for Radarr and `tvCategory` for Sonarr.
The password comes from the resolved config, never from the read API. -/
def expectedDownloadClientFields (catKey : String) (cfg : Config) (inst : InstanceCfg) :
    List DCField :=
  let host := cfg.username ++ "." ++ cfg.servername ++ ".usbx.me"
  [⟨"host", .s host⟩,
   ⟨"port", .i 443⟩,
   ⟨"urlBase", .s "/qbittorrent"⟩,
   ⟨"username", .s cfg.qbittorrent.username⟩,
   ⟨"password", .s cfg.qbittorrent.password⟩,
   ⟨catKey, .s (inst.category.getD "")⟩,
   ⟨"useSsl", .b true⟩]

/-- The diff of `_ensure_download_client`: some compared field (password
excluded) of the expected dict differs from the current field map. A
missing current key compares unequal, as `dict.get` returns None. -/
def needsUpdate (expected : List DCField) (current : List DCField) : Bool :=
  expected.any (fun f => f.name != "password" && !(fieldLookup current f.name == some f.value))

/-- Embeds `_build_download_client_payload`: the fields array re-reads the
expected dict in its insertion order, which is exactly the list built by
`expectedDownloadClientFields`. -/
def _build_download_client_payload (fields : List DCField) : DCPayload :=
  { name := "qBittorrent"
    implementation := "QBittorrent"
    configContract := "QBittorrentSettings"
    enable := true
    protocol := "torrent"
    fields := fields }

/-- Embeds `_ensure_root_folder`. -/
def _ensure_root_folder (inst : InstanceCfg) (folders : List String) :
    List String × List ArrWrite :=
  let desired := inst.rootFolder
  if !(folders.contains desired) then
    (["Added root folder: " ++ desired], [.postRootFolder desired])
  else ([], [])

/-- Embeds `_ensure_download_client`: match the first existing entry whose
implementation is QBittorrent; create when absent, update (with the
server-assigned id in the payload and the URL) when any compared field
differs, and no-op otherwise. -/
def _ensure_download_client (catKey : String) (cfg : Config) (inst : InstanceCfg)
    (clients : List DownloadClient) : List String × List ArrWrite :=
  let expected := expectedDownloadClientFields catKey cfg inst
  match clients.find? (fun dc => dc.implementation == "QBittorrent") with
  | none =>
    (["Added qBittorrent download client"],
     [.postDownloadClient (_build_download_client_payload expected)])
  | some existing =>
    if needsUpdate expected existing.fields then
      (["Updated qBittorrent download client settings"],
       [.putDownloadClient existing.id
         { _build_download_client_payload expected with id := some existing.id }])
    else ([], [])

/-- Embeds `_set_media_management`: three checks against the fetched
config dict, then a single combined read-modify-write of the merged dict
when any update was collected. Note the inversion: the desired API flag
`hardlinksCopy` is the negation of the `hardlinks` config flag. -/
def _set_media_management (cfg : Config) (current : List (String × Val)) :
    List String × List ArrWrite :=
  let mm := cfg.mediaManagement
  let desiredHardlinks := !(mm.hardlinks.getD true)
  let acc0 : List String × List (String × Val) := ([], [])
  let acc1 :=
    if !(dictLookup current "hardlinksCopy" == some (Val.b desiredHardlinks)) then
      (acc0.1 ++ ["Set hardlinks: " ++ (if !desiredHardlinks then "enabled" else "disabled")],
       acc0.2 ++ [("hardlinksCopy", Val.b desiredHardlinks)])
    else acc0
  let desiredAnalyze := mm.analyzeVideo.getD false
  let acc2 :=
    if !(dictLookup current "enableMediaInfo" == some (Val.b desiredAnalyze)) then
      (acc1.1 ++ ["Set analyze video: " ++ pyStr (Val.b desiredAnalyze)],
       acc1.2 ++ [("enableMediaInfo", Val.b desiredAnalyze)])
    else acc1
  let desiredPropers := mm.propersAndRepacks.getD "doNotPrefer"
  let acc3 :=
    if !(dictLookup current "downloadPropersAndRepacks" == some (Val.s desiredPropers)) then
      (acc2.1 ++ ["Set propers/repacks: " ++ desiredPropers],
       acc2.2 ++ [("downloadPropersAndRepacks", Val.s desiredPropers)])
    else acc2
  if acc3.2.isEmpty then (acc3.1, [])
  else (acc3.1, [.putMediaManagement (current ++ acc3.2)])

/-- The body of the tags loop in `_ensure_tags`: the set of existing
lowercased labels is computed once before the loop. -/
def tagStep (existingNames : List String) (acc : List String × List ArrWrite)
    (tag : String) : List String × List ArrWrite :=
  if !(existingNames.contains (pyLower tag)) then
    (acc.1 ++ ["Created tag: " ++ tag], acc.2 ++ [.postTag tag])
  else acc

/-- Embeds `_ensure_tags`. -/
def _ensure_tags (cfg : Config) (serviceName : String) (existingTags : List String) :
    List String × List ArrWrite :=
  let desired := (listLookup cfg.tags serviceName).getD []
  if desired.isEmpty then ([], [])
  else
    let existingNames := existingTags.map pyLower
    desired.foldl (tagStep existingNames) ([], [])

/-- The remote state fetched by a Sonarr/Radarr reconciler run. -/
structure ArrState where
  rootFolders : List String
  downloadClients : List DownloadClient
  mediaManagement : List (String × Val)
  tags : List String
deriving DecidableEq, Repr

/-- The shared body of `configure_radarr` (and of the Sonarr variant):
root folder, download client, media management, tags, with change lists
concatenated in that order. Returns none when the instance is absent from
the configuration (a KeyError in the sources). -/
def configureArr (catKey : String) (cfg : Config) (serviceName : String)
    (st : ArrState) : Option (List String × List ArrWrite) :=
  (listLookup cfg.instances serviceName).map (fun inst =>
    let a := _ensure_root_folder inst st.rootFolders
    let b := _ensure_download_client catKey cfg inst st.downloadClients
    let c := _set_media_management cfg st.mediaManagement
    let d := _ensure_tags cfg serviceName st.tags
    (a.1 ++ b.1 ++ c.1 ++ d.1, a.2 ++ b.2 ++ c.2 ++ d.2))

/-- Embeds `configure_radarr` (scripts/services/radarr.py, movieCategory). -/
def configure_radarr (cfg : Config) (serviceName : String) (st : ArrState) :
    Option (List String × List ArrWrite) :=
  configureArr "movieCategory" cfg serviceName st

/-- Modelled from the spec: scripts/services/sonarr.py is imported by the
orchestrator but is not under src/; the spec and the Radarr module header
state that Sonarr shares the same logic with `tvCategory` in place of
`movieCategory`. -/
def configure_sonarr (cfg : Config) (serviceName : String) (st : ArrState) :
    Option (List String × List ArrWrite) :=
  configureArr "tvCategory" cfg serviceName st

/-! ## Prowlarr reconciler (scripts/services/prowlarr.py) -/

/-- An application entry fetched from `api/v1/applications`. -/
structure ProwlarrApp where
  id : Nat
  fields : List DCField
deriving DecidableEq, Repr

/-- The application payload built by `_build_app_payload`. -/
structure AppPayload where
  name : String
  syncLevel : String
  implementation : String
  configContract : String
  fields : List DCField
  id : Option Nat := none
deriving DecidableEq, Repr

/-- A mutation issued by the Prowlarr reconciler. -/
inductive ProwlarrWrite
  | postApplication (p : AppPayload)
  | putApplication (id : Nat) (p : AppPayload)
  | postCommand (name : String)
deriving DecidableEq, Repr

/-- `_APP_TYPES`: implementation and configContract per Arr type. -/
def _APP_TYPES : List (String × String × String) :=
  [("sonarr", "Sonarr", "SonarrSettings"),
   ("radarr", "Radarr", "RadarrSettings")]

/-- The baseUrl key of a fetched application, via
`fields.get("baseUrl", "")`; a non-string value can never equal an
instance URL string, so it is treated as the empty (excluded) key. -/
def appBaseUrl (a : ProwlarrApp) : String :=
  match fieldLookup a.fields "baseUrl" with
  | some (.s s) => s
  | _ => ""

/-- The `existing_by_url` dict: built once from the fetched applications,
keyed by truthy baseUrl, later entries overwriting earlier ones. -/
def existingByUrl (apps : List ProwlarrApp) (u : String) : Option ProwlarrApp :=
  if u == "" then none else apps.reverse.find? (fun a => appBaseUrl a == u)

/-- Embeds `_build_app_payload`. -/
def _build_app_payload (name : String) (typeInfo : String × String)
    (fields : List DCField) : AppPayload :=
  { name := name
    syncLevel := "fullSync"
    implementation := typeInfo.1
    configContract := typeInfo.2
    fields := fields }

/-- The body of the per-instance loop of `configure_prowlarr`: build the
expected fields, match by baseUrl against the pre-built dict, compare all
fields except the apiKey (never returned by the read API), then update,
create, or no-op. -/
def prowlarrStep (apps : List ProwlarrApp) (prowlarrUrl : String)
    (acc : List String × List ProwlarrWrite) (nameInst : String × InstanceCfg) :
    List String × List ProwlarrWrite :=
  let inst := nameInst.2
  let typeInfo :=
    ((_APP_TYPES.find? (fun t => t.1 == inst.ty)).map (fun t => t.2)).getD ("", "")
  let arrUrl := inst.url
  let expected : List DCField :=
    [⟨"baseUrl", .s arrUrl⟩, ⟨"apiKey", .s inst.apiKey⟩, ⟨"prowlarrUrl", .s prowlarrUrl⟩]
  let displayName := pyTitle (pyReplace nameInst.1 "2" " 4K")
  match existingByUrl apps arrUrl with
  | some existing =>
    if expected.any (fun f =>
        f.name != "apiKey" && !(fieldLookup existing.fields f.name == some f.value)) then
      (acc.1 ++ ["Updated Prowlarr app: " ++ displayName],
       acc.2 ++ [.putApplication existing.id
         { _build_app_payload displayName typeInfo expected with id := some existing.id }])
    else acc
  | none =>
    (acc.1 ++ ["Added Prowlarr app: " ++ displayName],
     acc.2 ++ [.postApplication (_build_app_payload displayName typeInfo expected)])

/-- Embeds `configure_prowlarr`: none when the prowlarr instance is absent
from the configuration; otherwise process every Sonarr/Radarr instance and
trigger one indexer-sync command when any change was made. -/
def configure_prowlarr (cfg : Config) (apps : List ProwlarrApp) :
    Option (List String × List ProwlarrWrite) :=
  (listLookup cfg.instances "prowlarr").map (fun prowlarrInst =>
    let arrInstances :=
      cfg.instances.filter (fun ni => ni.2.ty == "sonarr" || ni.2.ty == "radarr")
    let r := arrInstances.foldl (prowlarrStep apps prowlarrInst.url) ([], [])
    if !r.1.isEmpty then
      (r.1 ++ ["Triggered ApplicationIndexerSync"],
       r.2 ++ [.postCommand "ApplicationIndexerSync"])
    else r)

/-! ## Jellyfin reconciler (scripts/services/jellyfin.py) -/

/-- A library definition: name, collection type, home-relative path. -/
structure LibraryDef where
  name : String
  collectionType : String
  path : String
deriving DecidableEq, Repr

/-- `_DEFAULT_LIBRARIES`, the fallback library definitions. -/
def _DEFAULT_LIBRARIES : List LibraryDef :=
  [⟨"TV Shows", "tvshows", "media/all/tv"⟩,
   ⟨"TV Shows UHD", "tvshows", "media/all/tv-uhd"⟩,
   ⟨"Movies", "movies", "media/all/movies"⟩,
   ⟨"Movies UHD", "movies", "media/all/movies-uhd"⟩]

/-- A mutation issued by the Jellyfin reconciler. -/
inductive JellyfinWrite
  | postVirtualFolder (name collectionType path refreshLibrary : String)
  | postRefresh
deriving DecidableEq, Repr

/-- The body of the libraries loop of `configure_jellyfin`: skip a library
whose name already exists, otherwise create it (refresh deferred) under an
absolute path below the home directory. -/
def jellyfinLibStep (homeDir : String) (existingNames : List String)
    (acc : List String × List JellyfinWrite × Bool) (lib : LibraryDef) :
    List String × List JellyfinWrite × Bool :=
  let libPath := homeDir ++ "/" ++ lib.path
  if existingNames.contains lib.name then acc
  else
    (acc.1 ++ ["Created library: " ++ lib.name ++ " (" ++ libPath ++ ")"],
     acc.2.1 ++ [.postVirtualFolder lib.name lib.collectionType libPath "false"],
     true)

/-- Embeds `configure_jellyfin`: the config library list with the default
fallback, exact name match against the fetched virtual-folder names, and
one refresh only if at least one library was created. The libraries config
entries are (name, collectionType, path) triples. -/
def configure_jellyfin (cfg : Config) (existingNames : List String) :
    Option (List String × List JellyfinWrite) :=
  (listLookup cfg.instances "jellyfin").map (fun inst =>
    let libraries :=
      (inst.libraries.map (fun ls => ls.map (fun l => (⟨l.1, l.2.1, l.2.2⟩ : LibraryDef)))).getD
        _DEFAULT_LIBRARIES
    let r := libraries.foldl (jellyfinLibStep cfg.homeDir existingNames) ([], [], false)
    if r.2.2 then
      (r.1 ++ ["Triggered library refresh"], r.2.1 ++ [.postRefresh])
    else (r.1, r.2.1))

/-! ## Jellyseerr reconciler (scripts/services/jellyseerr.py) -/

/-- A quality or language profile fetched from an Arr API. -/
structure Profile where
  id : Nat
  name : String
deriving DecidableEq, Repr

/-- `_QUALITY_PROFILES`: profile names created by Recyclarr templates. -/
def _QUALITY_PROFILES : List (String × String) :=
  [("sonarr", "WEB-1080p"),
   ("sonarr2", "WEB-2160p"),
   ("radarr", "HD Bluray + WEB"),
   ("radarr2", "UHD Bluray + WEB")]

/-- `_DEFAULT_STANDARD`: instances that are default for standard requests. -/
def _DEFAULT_STANDARD : List String := ["sonarr", "radarr"]

/-- `_DEFAULT_4K`: instances that are default for 4K requests. -/
def _DEFAULT_4K : List String := ["sonarr2", "radarr2"]

/-- Embeds `_resolve_profile`: empty configured name resolves to (0, "");
a thrown fetch or an empty profile list falls through to (0, ""); a listed
name resolves to its (id, name); an unlisted name falls back to the first
listed profile with a warning. -/
def _resolve_profile (profileName : String)
    (fetch : Except String (List Profile)) : Nat × String :=
  if profileName == "" then (0, "")
  else
    match fetch with
    | .error _ => (0, "")
    | .ok profiles =>
      match profiles.find? (fun p => p.name == profileName) with
      | some p => (p.id, p.name)
      | none =>
        match profiles with
        | [] => (0, "")
        | p0 :: _ => (p0.id, p0.name)

/-- Embeds `_resolve_language_profile_id`: prefer the profile named
English (case-insensitively), else the first available, else (on an empty
list, a missing endpoint or an error) the fixed fallback id 1. -/
def _resolve_language_profile_id (fetch : Except String (List Profile)) : Nat :=
  match fetch with
  | .error _ => 1
  | .ok profiles =>
    match profiles with
    | [] => 1
    | p0 :: _ =>
      match profiles.find? (fun p => pyLower p.name == "english") with
      | some p => p.id
      | none => p0.id

/-- The connection payload posted or put to `api/v1/settings/sonarr`. -/
structure SonarrServerPayload where
  name : String
  hostname : String
  port : Nat
  useSsl : Bool
  apiKey : String
  baseUrl : String
  activeProfileId : Nat
  activeProfileName : String
  activeLanguageProfileId : Nat
  activeDirectory : String
  isDefault : Bool
  is4k : Bool
  enableSeasonFolders : Bool
deriving DecidableEq, Repr

/-- The connection payload posted or put to `api/v1/settings/radarr`. -/
structure RadarrServerPayload where
  name : String
  hostname : String
  port : Nat
  useSsl : Bool
  apiKey : String
  baseUrl : String
  activeProfileId : Nat
  activeProfileName : String
  activeDirectory : String
  minimumAvailability : String
  isDefault : Bool
  is4k : Bool
deriving DecidableEq, Repr

/-- An existing Sonarr connection fetched from Jellyseerr, with its
server-assigned id and its visible fields. -/
structure SonarrServer where
  id : Nat
  payload : SonarrServerPayload
deriving DecidableEq, Repr

/-- An existing Radarr connection fetched from Jellyseerr. -/
structure RadarrServer where
  id : Nat
  payload : RadarrServerPayload
deriving DecidableEq, Repr

/-- Embeds `_find_existing_server`: first entry whose baseUrl matches. -/
def _find_existing_server {α : Type} (baseUrlOf : α → String) (existing : List α)
    (baseUrl : String) : Option α :=
  existing.find? (fun s => baseUrlOf s == baseUrl)

/-- A mutation issued by the Jellyseerr reconciler. -/
inductive JellyseerrWrite
  | postSonarr (p : SonarrServerPayload)
  | putSonarr (id : Nat) (p : SonarrServerPayload)
  | postRadarr (p : RadarrServerPayload)
  | putRadarr (id : Nat) (p : RadarrServerPayload)
deriving DecidableEq, Repr

/-- The remote world visible to the Jellyseerr reconciler: the existing
connections in Jellyseerr, and the profile lists fetched from each target
Arr instance (keyed by instance name; a missing key models a thrown
request). -/
structure JellyseerrWorld where
  sonarrServers : List SonarrServer
  radarrServers : List RadarrServer
  qualityProfiles : List (String × Except String (List Profile))
  languageProfiles : List (String × Except String (List Profile))
deriving Repr

/-- Quality-profile fetch for one instance from the world. -/
def qpFetch (w : JellyseerrWorld) (name : String) : Except String (List Profile) :=
  (listLookup w.qualityProfiles name).getD (.error "request failed")

/-- Language-profile fetch for one instance from the world. -/
def lpFetch (w : JellyseerrWorld) (name : String) : Except String (List Profile) :=
  (listLookup w.languageProfiles name).getD (.error "request failed")

/-- The desired Sonarr connection payload for one instance, as built in the
body of `_configure_sonarr_servers`. -/
def sonarrDesiredPayload (cfg : Config) (w : JellyseerrWorld)
    (name : String) (inst : InstanceCfg) : SonarrServerPayload :=
  let host := cfg.username ++ "." ++ cfg.servername ++ ".usbx.me"
  let profileName := (listLookup _QUALITY_PROFILES name).getD ""
  let resolved := _resolve_profile profileName (qpFetch w name)
  { name := pyReplace (pyTitle name) "2" " 4K"
    hostname := host
    port := 443
    useSsl := true
    apiKey := inst.apiKey
    baseUrl := inst.appPath
    activeProfileId := resolved.1
    activeProfileName := resolved.2
    activeLanguageProfileId := _resolve_language_profile_id (lpFetch w name)
    activeDirectory := inst.rootFolder
    isDefault := _DEFAULT_STANDARD.contains name
    is4k := _DEFAULT_4K.contains name
    enableSeasonFolders := true }

/-- The desired Radarr connection payload for one instance, as built in the
body of `_configure_radarr_servers`. -/
def radarrDesiredPayload (cfg : Config) (w : JellyseerrWorld)
    (name : String) (inst : InstanceCfg) : RadarrServerPayload :=
  let host := cfg.username ++ "." ++ cfg.servername ++ ".usbx.me"
  let profileName := (listLookup _QUALITY_PROFILES name).getD ""
  let resolved := _resolve_profile profileName (qpFetch w name)
  { name := pyReplace (pyTitle name) "2" " 4K"
    hostname := host
    port := 443
    useSsl := true
    apiKey := inst.apiKey
    baseUrl := inst.appPath
    activeProfileId := resolved.1
    activeProfileName := resolved.2
    activeDirectory := inst.rootFolder
    minimumAvailability := "released"
    isDefault := _DEFAULT_STANDARD.contains name
    is4k := _DEFAULT_4K.contains name }

/-- Embeds `_configure_sonarr_servers`: for every configured Sonarr
instance, build the payload and either put (when an entry with the same
baseUrl exists) or post — in both branches a change string is recorded
unconditionally; there is no diff against the current entry. -/
def _configure_sonarr_servers (cfg : Config) (w : JellyseerrWorld) :
    List String × List JellyseerrWrite :=
  let sonarrInstances := cfg.instances.filter (fun ni => ni.2.ty == "sonarr")
  sonarrInstances.foldl (fun acc ni =>
    let payload := sonarrDesiredPayload cfg w ni.1 ni.2
    match _find_existing_server (fun s => s.payload.baseUrl) w.sonarrServers ni.2.appPath with
    | some found =>
      (acc.1 ++ ["Updated Jellyseerr Sonarr server: " ++ ni.1],
       acc.2 ++ [.putSonarr found.id payload])
    | none =>
      (acc.1 ++ ["Added Jellyseerr Sonarr server: " ++ ni.1],
       acc.2 ++ [.postSonarr payload])) ([], [])

/-- Embeds `_configure_radarr_servers`: same shape as the Sonarr variant. -/
def _configure_radarr_servers (cfg : Config) (w : JellyseerrWorld) :
    List String × List JellyseerrWrite :=
  let radarrInstances := cfg.instances.filter (fun ni => ni.2.ty == "radarr")
  radarrInstances.foldl (fun acc ni =>
    let payload := radarrDesiredPayload cfg w ni.1 ni.2
    match _find_existing_server (fun s => s.payload.baseUrl) w.radarrServers ni.2.appPath with
    | some found =>
      (acc.1 ++ ["Updated Jellyseerr Radarr server: " ++ ni.1],
       acc.2 ++ [.putRadarr found.id payload])
    | none =>
      (acc.1 ++ ["Added Jellyseerr Radarr server: " ++ ni.1],
       acc.2 ++ [.postRadarr payload])) ([], [])

/-- Embeds `configure_jellyseerr`: none when the jellyseerr instance is
absent from the configuration; otherwise the Sonarr connections followed
by the Radarr connections. -/
def configure_jellyseerr (cfg : Config) (w : JellyseerrWorld) :
    Option (List String × List JellyseerrWrite) :=
  (listLookup cfg.instances "jellyseerr").map (fun _ =>
    let s := _configure_sonarr_servers cfg w
    let r := _configure_radarr_servers cfg w
    (s.1 ++ r.1, s.2 ++ r.2))

/-! ## Summary logger (scripts/lib/logger.py) -/

/-- The `Status` enumeration of the summary logger. -/
inductive Status
  | pending
  | in_progress
  | success
  | failed
  | skipped
deriving DecidableEq, Repr

/-- The per-service record held by the summary logger. -/
structure SvcInfo where
  status : Status
  changes : List String
  errors : List String
deriving DecidableEq, Repr

/-- The record created by `_ensure` on first reference. -/
def SvcInfo.init : SvcInfo := ⟨.pending, [], []⟩

/-- The summary logger state: an insertion-ordered dict from service name
to its record. -/
abbrev Summary : Type := List (String × SvcInfo)

/-- Embeds `SummaryLogger._ensure`. -/
def Summary.ensure (s : Summary) (name : String) : Summary :=
  if s.any (fun e => e.1 == name) then s else s ++ [(name, SvcInfo.init)]

/-- Mutation of one service record: ensure it exists, then rewrite it in
place. -/
def Summary.update (s : Summary) (name : String) (f : SvcInfo → SvcInfo) : Summary :=
  (s.ensure name).map (fun e => if e.1 == name then (e.1, f e.2) else e)

/-- Embeds `SummaryLogger.log_skip`. -/
def Summary.log_skip (s : Summary) (name reason : String) : Summary :=
  s.update name (fun i =>
    { i with status := .skipped, changes := i.changes ++ ["Skipped: " ++ reason] })

/-- Embeds `SummaryLogger.mark_in_progress`. -/
def Summary.mark_in_progress (s : Summary) (name : String) : Summary :=
  s.update name (fun i => { i with status := .in_progress })

/-- Embeds `SummaryLogger.mark_success` (with a non-None change list; the
`if changes` guard and extending by an empty list coincide). -/
def Summary.mark_success (s : Summary) (name : String) (changes : List String) : Summary :=
  s.update name (fun i => { i with status := .success, changes := i.changes ++ changes })

/-- Embeds `SummaryLogger.mark_failed`. -/
def Summary.mark_failed (s : Summary) (name error : String) : Summary :=
  s.update name (fun i => { i with status := .failed, errors := i.errors ++ [error] })

/-- Embeds `SummaryLogger.has_failures`. -/
def Summary.has_failures (s : Summary) : Bool :=
  s.any (fun e => e.2.status == .failed)

/-- The recorded status of a service: the first dict entry with its name. -/
def Summary.statusOf (s : Summary) (name : String) : Option Status :=
  ((s.find? (fun e => e.1 == name)).map (fun e => e.2.status))

/-- The recorded change list of a service. -/
def Summary.changesOf (s : Summary) (name : String) : List String :=
  (((s.find? (fun e => e.1 == name)).map (fun e => e.2.changes))).getD []

/-! ## Connectivity prober (scripts/validate.py) -/

/-- Whether a probe result is a success (no exception was raised). -/
def probeOk (r : Except String Unit) : Bool :=
  match r with
  | .ok _ => true
  | .error _ => false

/-- Embeds `validate`: try the health check of each requested service,
adding it to the reachable set on success and only logging on failure; the
function itself never raises. -/
def validate (requested : List String) (probe : String → Except String Unit) :
    List String :=
  requested.filter (fun n => probeOk (probe n))

/-! ## Orchestrator (scripts/setup.py) -/

/-- `ALL_SERVICES`, in dependency order. -/
def ALL_SERVICES : List String :=
  ["qbittorrent", "sonarr", "sonarr2", "radarr", "radarr2",
   "prowlarr", "jellyfin", "jellyseerr"]

/-- The key set of the `_CONFIGURE_FN` dispatch table. -/
def _CONFIGURE_FN_KEYS : List String :=
  ["qbittorrent", "sonarr", "sonarr2", "radarr", "radarr2",
   "prowlarr", "jellyfin", "jellyseerr"]

/-- One iteration of the main loop of `main`: skip a service that was not
requested; record an unreachable service as skipped; record a service with
no configure function as skipped; otherwise mark it in progress and run the
reconciler, whose outcome (changes or a raised exception message) is given
by the `outcome` oracle. -/
def runService (requested reachable : List String)
    (outcome : String → Except String (List String)) (summary : Summary)
    (serviceName : String) : Summary :=
  if !(requested.contains serviceName) then summary
  else if !(reachable.contains serviceName) then
    summary.log_skip serviceName "unreachable"
  else if !(_CONFIGURE_FN_KEYS.contains serviceName) then
    summary.log_skip serviceName "no configure function"
  else
    match outcome serviceName with
    | .ok changes => (summary.mark_in_progress serviceName).mark_success serviceName changes
    | .error e => (summary.mark_in_progress serviceName).mark_failed serviceName e

/-- The main loop of `main`: every known service in dependency order,
against an initially empty summary. -/
def main_run (requested reachable : List String)
    (outcome : String → Except String (List String)) : Summary :=
  ALL_SERVICES.foldl (runService requested reachable outcome) ([] : Summary)

/-- Embeds `sys.exit(1 if summary.has_failures() else 0)`. -/
def exit_code (requested reachable : List String)
    (outcome : String → Except String (List String)) : Nat :=
  if (main_run requested reachable outcome).has_failures then 1 else 0

/-! ## Matching predicates: the remote state equals the desired state

Each predicate states, aspect by aspect, that the fetched remote state
already carries the desired values computed from the resolved
configuration — the situation after a successful reconciler run whose
target applied every write. -/

/-- The list of (api key, desired value) preference pairs that
`_set_preferences` checks: the default save path and every mapped
preference present in the config. -/
def qbitPrefCandidates (q : QbitCfg) : List (String × Val) :=
  ("save_path", Val.s q.defaultSavePath) ::
  _PREF_MAP.filterMap (fun ckak =>
    (dictLookup q.preferences ckak.1).map (fun v0 => (ckak.2, translatePref ckak.1 v0)))

/-- The qBittorrent remote state matches the desired state: every checked
preference has its desired value, and every configured category exists
with its desired save path. -/
def qbitMatches (cfg : Config) (st : QbitState) : Bool :=
  (qbitPrefCandidates cfg.qbittorrent).all (fun kv => dictLookup st.prefs kv.1 == some kv.2) &&
  cfg.qbittorrent.categories.all (fun cat =>
    hasKey st.categories cat.1 &&
    ((dictLookup st.categories cat.1).join == some (cat.2.getD cat.1)))

/-- The matched download-client entry carries every compared desired field
value (host, port, urlBase, username, category, useSsl; the password is
not compared). -/
def dcFieldsMatch (catKey : String) (cfg : Config) (inst : InstanceCfg)
    (fs : List DCField) : Bool :=
  let host := cfg.username ++ "." ++ cfg.servername ++ ".usbx.me"
  (fieldLookup fs "host" == some (Val.s host)) &&
  (fieldLookup fs "port" == some (Val.i 443)) &&
  (fieldLookup fs "urlBase" == some (Val.s "/qbittorrent")) &&
  (fieldLookup fs "username" == some (Val.s cfg.qbittorrent.username)) &&
  (fieldLookup fs catKey == some (Val.s (inst.category.getD ""))) &&
  (fieldLookup fs "useSsl" == some (Val.b true))

/-- The fetched media-management dict carries the three desired values. -/
def mmMatches (cfg : Config) (current : List (String × Val)) : Bool :=
  (dictLookup current "hardlinksCopy" ==
     some (Val.b (!(cfg.mediaManagement.hardlinks.getD true)))) &&
  (dictLookup current "enableMediaInfo" ==
     some (Val.b (cfg.mediaManagement.analyzeVideo.getD false))) &&
  (dictLookup current "downloadPropersAndRepacks" ==
     some (Val.s (cfg.mediaManagement.propersAndRepacks.getD "doNotPrefer")))

/-- The Sonarr/Radarr remote state matches the desired state: the root
folder exists, the matched QBittorrent download client carries every
compared desired field, media management is as desired, and every desired
tag exists case-insensitively. -/
def arrMatches (catKey : String) (cfg : Config) (serviceName : String)
    (st : ArrState) : Bool :=
  match listLookup cfg.instances serviceName with
  | none => false
  | some inst =>
    st.rootFolders.contains inst.rootFolder &&
    (match st.downloadClients.find? (fun dc => dc.implementation == "QBittorrent") with
     | some dc => dcFieldsMatch catKey cfg inst dc.fields
     | none => false) &&
    mmMatches cfg st.mediaManagement &&
    ((listLookup cfg.tags serviceName).getD []).all (fun t =>
      (st.tags.map pyLower).contains (pyLower t))

/-- The Prowlarr remote state matches the desired state: every configured
Sonarr/Radarr instance has an application entry at its base URL whose
compared fields (baseUrl and prowlarrUrl; the apiKey is not compared)
carry the desired values. -/
def prowlarrMatches (cfg : Config) (apps : List ProwlarrApp) : Bool :=
  match listLookup cfg.instances "prowlarr" with
  | none => false
  | some prowlarrInst =>
    (cfg.instances.filter (fun ni => ni.2.ty == "sonarr" || ni.2.ty == "radarr")).all
      (fun ni =>
        match existingByUrl apps ni.2.url with
        | some app =>
          (fieldLookup app.fields "baseUrl" == some (Val.s ni.2.url)) &&
          (fieldLookup app.fields "prowlarrUrl" == some (Val.s prowlarrInst.url))
        | none => false)

/-- The Jellyfin remote state matches the desired state: every declared
library name already exists. -/
def jellyfinMatches (cfg : Config) (existingNames : List String) : Bool :=
  match listLookup cfg.instances "jellyfin" with
  | none => false
  | some inst =>
    ((inst.libraries.map (fun ls => ls.map (fun l => (⟨l.1, l.2.1, l.2.2⟩ : LibraryDef)))).getD
      _DEFAULT_LIBRARIES).all (fun lib => existingNames.contains lib.name)

/-- The Jellyseerr remote state matches the desired state: every configured
Sonarr/Radarr instance has a connection entry at its base URL whose entire
visible payload equals the desired payload. -/
def jellyseerrMatches (cfg : Config) (w : JellyseerrWorld) : Bool :=
  match listLookup cfg.instances "jellyseerr" with
  | none => false
  | some _ =>
    (cfg.instances.filter (fun ni => ni.2.ty == "sonarr")).all (fun ni =>
      match _find_existing_server (fun s => s.payload.baseUrl) w.sonarrServers ni.2.appPath with
      | some found => found.payload == sonarrDesiredPayload cfg w ni.1 ni.2
      | none => false) &&
    (cfg.instances.filter (fun ni => ni.2.ty == "radarr")).all (fun ni =>
      match _find_existing_server (fun s => s.payload.baseUrl) w.radarrServers ni.2.appPath with
      | some found => found.payload == radarrDesiredPayload cfg w ni.1 ni.2
      | none => false)

/-! ## Derived run wrappers and concrete fixtures -/

/-- A preferences reconciliation run including the dry-run gate: the
change list is computed from the diff regardless of the flag, while only
a live run emits the batched write. -/
def run_set_preferences (dryRun : Bool) (q : QbitCfg) (current : List (String × Val)) :
    List String × List QbitWrite :=
  let r := _set_preferences q current
  (r.1, emittedWrites dryRun r.2)

/-- The record currently held for a service, or the initial record. -/
def infoOf (s : Summary) (name : String) : SvcInfo :=
  ((s.find? (fun e => e.1 == name)).map (fun e => e.2)).getD SvcInfo.init

/-- A small fully resolved configuration used as concrete input. -/
def cfg0 : Config :=
  { username := "alice"
    servername := "lw999"
    homeDir := "/home/alice"
    qbittorrent :=
      { url := "https://alice.lw999.usbx.me/qbittorrent"
        username := "qbu"
        password := "qbp"
        defaultSavePath := "/home/alice/downloads/qbittorrent"
        preferences := [("torrent_management_mode", Val.s "automatic")]
        categories := [("tv", some "/home/alice/downloads/qbittorrent/tv")] }
    mediaManagement := ⟨some true, some false, some "doNotPrefer"⟩
    tags := [("sonarr", ["recyclarr"])]
    instances :=
      [("sonarr",
        ⟨"https://alice.lw999.usbx.me/sonarr", "sk", "sonarr", "/sonarr",
         "/home/alice/media/tv", some "tv", none⟩),
       ("radarr",
        ⟨"https://alice.lw999.usbx.me/radarr", "rk", "radarr", "/radarr",
         "/home/alice/media/movies", some "movies", none⟩),
       ("prowlarr",
        ⟨"https://alice.lw999.usbx.me/prowlarr", "pk", "prowlarr", "/prowlarr",
         "", none, none⟩),
       ("jellyfin",
        ⟨"https://alice.lw999.usbx.me/jellyfin", "jk", "jellyfin", "/jellyfin",
         "", none, none⟩),
       ("jellyseerr",
        ⟨"https://alice.lw999.usbx.me/jellyseerr", "jsk", "jellyseerr", "/jellyseerr",
         "", none, none⟩)] }

/-- A qBittorrent remote state that matches the desired state of cfg0. -/
def qbitState0 : QbitState :=
  { prefs := [("save_path", Val.s "/home/alice/downloads/qbittorrent"),
              ("auto_tmm_enabled", Val.b true)]
    categories := [("tv", some "/home/alice/downloads/qbittorrent/tv")] }

/-- A Sonarr remote state that matches the desired state of cfg0. -/
def sonarrState0 : ArrState :=
  { rootFolders := ["/home/alice/media/tv"]
    downloadClients :=
      [⟨3, "QBittorrent",
        [⟨"host", .s "alice.lw999.usbx.me"⟩, ⟨"port", .i 443⟩,
         ⟨"urlBase", .s "/qbittorrent"⟩, ⟨"username", .s "qbu"⟩,
         ⟨"password", .s "qbp"⟩, ⟨"tvCategory", .s "tv"⟩, ⟨"useSsl", .b true⟩]⟩]
    mediaManagement := [("hardlinksCopy", Val.b false), ("enableMediaInfo", Val.b false),
                        ("downloadPropersAndRepacks", Val.s "doNotPrefer")]
    tags := ["recyclarr"] }

/-- A Radarr remote state that matches the desired state of cfg0. -/
def radarrState0 : ArrState :=
  { rootFolders := ["/home/alice/media/movies"]
    downloadClients :=
      [⟨4, "QBittorrent",
        [⟨"host", .s "alice.lw999.usbx.me"⟩, ⟨"port", .i 443⟩,
         ⟨"urlBase", .s "/qbittorrent"⟩, ⟨"username", .s "qbu"⟩,
         ⟨"password", .s "qbp"⟩, ⟨"movieCategory", .s "movies"⟩, ⟨"useSsl", .b true⟩]⟩]
    mediaManagement := [("hardlinksCopy", Val.b false), ("enableMediaInfo", Val.b false),
                        ("downloadPropersAndRepacks", Val.s "doNotPrefer")]
    tags := [] }

/-- A Prowlarr application list that matches the desired state of cfg0. -/
def prowlarrApps0 : List ProwlarrApp :=
  [⟨1, [⟨"baseUrl", .s "https://alice.lw999.usbx.me/sonarr"⟩,
        ⟨"prowlarrUrl", .s "https://alice.lw999.usbx.me/prowlarr"⟩]⟩,
   ⟨2, [⟨"baseUrl", .s "https://alice.lw999.usbx.me/radarr"⟩,
        ⟨"prowlarrUrl", .s "https://alice.lw999.usbx.me/prowlarr"⟩]⟩]

/-- The Jellyfin library names that match the desired state of cfg0. -/
def jellyfinNames0 : List String :=
  ["TV Shows", "TV Shows UHD", "Movies", "Movies UHD"]

/-- The profile lists served by the target Arr instances in the concrete
Jellyseerr world. -/
def jsQualityProfiles0 : List (String × Except String (List Profile)) :=
  [("sonarr", .ok [⟨1, "WEB-1080p"⟩]), ("radarr", .ok [⟨1, "HD Bluray + WEB"⟩])]

/-- The language-profile lists served in the concrete Jellyseerr world. -/
def jsLanguageProfiles0 : List (String × Except String (List Profile)) :=
  [("sonarr", .ok [⟨1, "English"⟩])]

/-- A fetch-only world used to compute the desired payloads. -/
def jellyseerrFetchWorld0 : JellyseerrWorld :=
  ⟨[], [], jsQualityProfiles0, jsLanguageProfiles0⟩

/-- A Jellyseerr world whose existing connections carry exactly the desired
payloads of cfg0. -/
def jellyseerrWorld0 : JellyseerrWorld :=
  { sonarrServers :=
      [⟨1, sonarrDesiredPayload cfg0 jellyseerrFetchWorld0 "sonarr"
            ⟨"https://alice.lw999.usbx.me/sonarr", "sk", "sonarr", "/sonarr",
             "/home/alice/media/tv", some "tv", none⟩⟩]
    radarrServers :=
      [⟨2, radarrDesiredPayload cfg0 jellyseerrFetchWorld0 "radarr"
            ⟨"https://alice.lw999.usbx.me/radarr", "rk", "radarr", "/radarr",
             "/home/alice/media/movies", some "movies", none⟩⟩]
    qualityProfiles := jsQualityProfiles0
    languageProfiles := jsLanguageProfiles0 }


/-- A terminal summary status: success, failed or skipped. -/
def terminalStatus (o : Option Status) : Prop :=
  o = some Status.success ∨ o = some Status.failed ∨ o = some Status.skipped

/-! ## Shared no-op and summary lemmas, and claim theorems -/

/-- A download-client entry whose compared fields all carry the desired
values produces no diff: `needsUpdate` is false on it (the password entry
is skipped by name). -/
theorem needsUpdate_false_of_dcFieldsMatch (catKey : String) (cfg : Config)
    (inst : InstanceCfg) (fs : List DCField)
    (h : dcFieldsMatch catKey cfg inst fs = true) :
    needsUpdate (expectedDownloadClientFields catKey cfg inst) fs = false := by
  simp only [dcFieldsMatch, Bool.and_eq_true, beq_iff_eq] at h
  obtain ⟨⟨⟨⟨⟨h1, h2⟩, h3⟩, h4⟩, h5⟩, h6⟩ := h
  simp [needsUpdate, expectedDownloadClientFields, h1, h2, h3, h4, h5, h6]

/-- C2: the claim says a 4xx response is never retried and the client
raises immediately on the first attempt. The code disagrees:
`raise_for_status` raises an HTTPError for a 4xx and the except clause of
the retry loop catches HTTPError generically, so a GET answered by 404 on
every attempt runs all 3 attempts, sleeping 2 and then 4 seconds, before
the error propagates — contradicting the claim and the docstring of
`_request` ("retry on 5xx / connection errors"). -/
theorem claim_C2_404_retried_not_immediate :
    _request [.status 404 "not found", .status 404 "not found", .status 404 "not found"] =
      ⟨.error (.httpError 404), 3, [2, 4]⟩ ∧
    (_request [.status 404 "not found", .status 404 "not found",
        .status 404 "not found"]).attemptsUsed ≠ 1 := by
  exact ⟨by decide, by decide⟩

/-- C3 counterexample: with dry-run enabled, a preferences reconciliation
against a state whose save path differs emits no network write, yet the
returned change list is non-empty — change descriptions are recorded,
contradicting the claim that they are not. -/
theorem claim_C3_counterexample :
    (run_set_preferences true ⟨"https://x/qbittorrent", "u", "p", "/home/u/dl", [], []⟩
        [("save_path", Val.s "/old")]).1 = ["Set default save path: /home/u/dl"] ∧
    (run_set_preferences true ⟨"https://x/qbittorrent", "u", "p", "/home/u/dl", [], []⟩
        [("save_path", Val.s "/old")]).2 = [] ∧
    (["Set default save path: /home/u/dl"] : List String) ≠ [] := by
  exact ⟨by decide, by decide, by decide⟩

/-- C3 amended: with dry-run enabled, post, put and delete perform no
network request and return the no-op sentinel None, and get still executes
its request; change descriptions however are still recorded — a dry-run
reconciliation returns exactly the change list a live run would, only the
writes are suppressed. -/
theorem claim_C3_dry_run_behaviour (net : Method → String → String) (path : String)
    (q : QbitCfg) (current : List (String × Val))
    (cats : List (String × Option String)) :
    BaseClient.post ⟨true⟩ net path = (none, []) ∧
    BaseClient.put ⟨true⟩ net path = (none, []) ∧
    BaseClient.delete ⟨true⟩ net path = (none, []) ∧
    BaseClient.get ⟨true⟩ net path = (net .GET path, [⟨.GET, path⟩]) ∧
    run_set_preferences true q current = ((_set_preferences q current).1, []) ∧
    emittedWrites true (_set_categories q cats).2 = [] := by
  exact ⟨rfl, rfl, rfl, rfl, rfl, rfl⟩

/-- C6: a get whose attempts yield two 503 responses and then a 200
succeeds with the 200 payload after backoff waits of 2 and then 4 seconds;
and when all three attempts fail, the error of the last attempt propagates
to the caller. -/
theorem claim_C6_retry_backoff (b1 b2 body : String)
    (o1 o2 o3 : AttemptResult) (e1 e2 e3 : ReqError)
    (h1 : classifyAttempt o1 = .error e1) (h2 : classifyAttempt o2 = .error e2)
    (h3 : classifyAttempt o3 = .error e3) :
    _request [.status 503 b1, .status 503 b2, .status 200 body] =
      ⟨.ok body, 3, [2, 4]⟩ ∧
    _request [o1, o2, o3] = ⟨.error e3, 3, [2, 4]⟩ := by
  constructor
  · rfl
  · simp [_request, requestGo, h1, h2, h3, MAX_RETRIES, BACKOFF_BASE]

/-- C6 witness: the retry theorem applied at concrete attempt lists. -/
theorem claim_C6_retry_backoff_witness :
    _request [.status 503 "oops", .status 503 "oops", .status 200 "payload"] =
      ⟨.ok "payload", 3, [2, 4]⟩ ∧
    _request [.status 500 "a", .connError, .status 502 "b"] =
      ⟨.error (.httpError 502), 3, [2, 4]⟩ :=
  claim_C6_retry_backoff "oops" "oops" "payload"
    (.status 500 "a") .connError (.status 502 "b")
    (.httpError 500) .connError (.httpError 502) (by decide) (by decide) (by decide)

/-- C9: with a non-empty configured profile name that is absent from a
non-empty profile list, the Jellyseerr resolver returns the (id, name)
pair of the first listed profile instead of failing, and with no
configured profile name it returns (0, ""). -/
theorem claim_C9_profile_fallback (pn : String) (p0 : Profile) (rest : List Profile)
    (hpn : pn ≠ "") (hmiss : ∀ p ∈ p0 :: rest, p.name ≠ pn) :
    _resolve_profile pn (.ok (p0 :: rest)) = (p0.id, p0.name) ∧
    (∀ fetch, _resolve_profile "" fetch = (0, "")) := by
  constructor
  · have hbeq : (pn == "") = false := by simp [hpn]
    have hfind : (p0 :: rest).find? (fun p => p.name == pn) = none := by
      rw [List.find?_eq_none]
      intro p hp
      simp [hmiss p hp]
    simp [_resolve_profile, hbeq, hfind]
  · intro fetch
    rfl

/-- C9 witness: the resolver theorem applied at a concrete profile list
missing the configured name. -/
theorem claim_C9_profile_fallback_witness :
    _resolve_profile "WEB-1080p" (.ok [⟨7, "Any"⟩]) = (7, "Any") ∧
    _resolve_profile "" (.ok []) = (0, "") :=
  ⟨(claim_C9_profile_fallback "WEB-1080p" ⟨7, "Any"⟩ [] (by decide) (by decide)).1,
   (claim_C9_profile_fallback "WEB-1080p" ⟨7, "Any"⟩ [] (by decide) (by decide)).2 (.ok [])⟩

/-- C10: with dry-run enabled, login still performs a real network POST
to api/v2/auth/login, because it goes through `_request` directly rather
than the gated post — shown for a direct login call, for the lazy login of
a first get, for the lazy login of a first post (the setPreferences path),
and for the configure run, which invokes login unconditionally. -/
theorem claim_C10_dry_run_login_still_posts (body : String)
    (net : Method → String → String) (path : String)
    (cfg : Config) (st : QbitState) :
    (QbitClientState.login ⟨true, false⟩ body).2 = [⟨.POST, "api/v2/auth/login"⟩] ∧
    (QbitClientState.get ⟨true, false⟩ body net path).2.head? =
      some ⟨.POST, "api/v2/auth/login"⟩ ∧
    (QbitClientState.post ⟨true, false⟩ body net "api/v2/app/setPreferences").2.head? =
      some ⟨.POST, "api/v2/auth/login"⟩ ∧
    (configure_qbittorrent_trace true cfg st body).head? =
      some ⟨.POST, "api/v2/auth/login"⟩ := by
  refine ⟨rfl, ?_, ?_, rfl⟩
  · cases hb : body == "Ok." <;>
      simp [QbitClientState.get, QbitClientState.login, hb]
  · cases hb : body == "Ok." <;>
      simp [QbitClientState.post, QbitClientState.login, hb, BaseClient.post]

/-- C4: for the download-client reconciliation, an existing entry matched
by implementation QBittorrent with every compared field equal (password
excluded from the comparison) triggers no write; when the category field
differs, exactly one update call is made whose payload carries the
server-assigned id of the existing entry, the new category, and the
password taken from the resolved config rather than from the read API. -/
theorem claim_C4_download_client_diff (cfg : Config) (inst : InstanceCfg)
    (clients : List DownloadClient) (existing : DownloadClient)
    (hfind : clients.find? (fun dc => dc.implementation == "QBittorrent") = some existing) :
    (dcFieldsMatch "movieCategory" cfg inst existing.fields = true →
      _ensure_download_client "movieCategory" cfg inst clients = ([], [])) ∧
    ((fieldLookup existing.fields "movieCategory" ==
        some (Val.s (inst.category.getD ""))) = false →
      _ensure_download_client "movieCategory" cfg inst clients =
        (["Updated qBittorrent download client settings"],
         [ArrWrite.putDownloadClient existing.id
           { name := "qBittorrent", implementation := "QBittorrent",
             configContract := "QBittorrentSettings", enable := true,
             protocol := "torrent",
             fields := expectedDownloadClientFields "movieCategory" cfg inst,
             id := some existing.id }]) ∧
      fieldLookup (expectedDownloadClientFields "movieCategory" cfg inst) "movieCategory" =
        some (Val.s (inst.category.getD "")) ∧
      fieldLookup (expectedDownloadClientFields "movieCategory" cfg inst) "password" =
        some (Val.s cfg.qbittorrent.password)) := by
  constructor
  · intro hm
    simp [_ensure_download_client, hfind,
      needsUpdate_false_of_dcFieldsMatch "movieCategory" cfg inst existing.fields hm]
  · intro hdiff
    have hneeds : needsUpdate (expectedDownloadClientFields "movieCategory" cfg inst)
        existing.fields = true := by
      simp [needsUpdate, expectedDownloadClientFields, hdiff]
    refine ⟨?_, ?_, ?_⟩
    · simp [_ensure_download_client, hfind, hneeds, _build_download_client_payload]
    · simp [fieldLookup, expectedDownloadClientFields]
    · simp [fieldLookup, expectedDownloadClientFields]

/-- C4 witness: the diff theorem applied to a matching fetched entry and
to an entry whose category and read-back password differ from the desired
values. -/
theorem claim_C4_download_client_diff_witness :
    _ensure_download_client "movieCategory" cfg0
      ⟨"https://alice.lw999.usbx.me/radarr", "rk", "radarr", "/radarr",
       "/home/alice/media/movies", some "movies", none⟩
      radarrState0.downloadClients = ([], []) ∧
    _ensure_download_client "movieCategory" cfg0
      ⟨"https://alice.lw999.usbx.me/radarr", "rk", "radarr", "/radarr",
       "/home/alice/media/movies", some "movies", none⟩
      [⟨4, "QBittorrent",
        [⟨"host", .s "alice.lw999.usbx.me"⟩, ⟨"port", .i 443⟩,
         ⟨"urlBase", .s "/qbittorrent"⟩, ⟨"username", .s "qbu"⟩,
         ⟨"password", .s "stale-password-from-read-api"⟩,
         ⟨"movieCategory", .s "old"⟩, ⟨"useSsl", .b true⟩]⟩] =
      (["Updated qBittorrent download client settings"],
       [ArrWrite.putDownloadClient 4
         { name := "qBittorrent", implementation := "QBittorrent",
           configContract := "QBittorrentSettings", enable := true,
           protocol := "torrent",
           fields := expectedDownloadClientFields "movieCategory" cfg0
             ⟨"https://alice.lw999.usbx.me/radarr", "rk", "radarr", "/radarr",
              "/home/alice/media/movies", some "movies", none⟩,
           id := some 4 }]) :=
  ⟨(claim_C4_download_client_diff cfg0
      ⟨"https://alice.lw999.usbx.me/radarr", "rk", "radarr", "/radarr",
       "/home/alice/media/movies", some "movies", none⟩
      radarrState0.downloadClients
      ⟨4, "QBittorrent",
        [⟨"host", .s "alice.lw999.usbx.me"⟩, ⟨"port", .i 443⟩,
         ⟨"urlBase", .s "/qbittorrent"⟩, ⟨"username", .s "qbu"⟩,
         ⟨"password", .s "qbp"⟩, ⟨"movieCategory", .s "movies"⟩, ⟨"useSsl", .b true⟩]⟩
      (by decide)).1 (by decide),
   ((claim_C4_download_client_diff cfg0
      ⟨"https://alice.lw999.usbx.me/radarr", "rk", "radarr", "/radarr",
       "/home/alice/media/movies", some "movies", none⟩
      [⟨4, "QBittorrent",
        [⟨"host", .s "alice.lw999.usbx.me"⟩, ⟨"port", .i 443⟩,
         ⟨"urlBase", .s "/qbittorrent"⟩, ⟨"username", .s "qbu"⟩,
         ⟨"password", .s "stale-password-from-read-api"⟩,
         ⟨"movieCategory", .s "old"⟩, ⟨"useSsl", .b true⟩]⟩]
      ⟨4, "QBittorrent",
        [⟨"host", .s "alice.lw999.usbx.me"⟩, ⟨"port", .i 443⟩,
         ⟨"urlBase", .s "/qbittorrent"⟩, ⟨"username", .s "qbu"⟩,
         ⟨"password", .s "stale-password-from-read-api"⟩,
         ⟨"movieCategory", .s "old"⟩, ⟨"useSsl", .b true⟩]⟩
      (by decide)).2 (by decide)).1⟩

/-- The mapped-preferences loop collects nothing when every present
candidate already has its desired value. -/
theorem prefStep_foldl_noop (q : QbitCfg) (current : List (String × Val))
    (L : List (String × String)) (acc : List String × List (String × Val))
    (h : ∀ ckak ∈ L, ∀ v0, dictLookup q.preferences ckak.1 = some v0 →
      (dictLookup current ckak.2 == some (translatePref ckak.1 v0)) = true) :
    L.foldl (prefStep q current) acc = acc := by
  induction L generalizing acc with
  | nil => rfl
  | cons x xs ih =>
    have hstep : prefStep q current acc x = acc := by
      cases hl : dictLookup q.preferences x.1 with
      | none => simp [prefStep, hl]
      | some v0 => simp [prefStep, hl, h x (List.mem_cons_self x xs) v0 hl]
    rw [List.foldl_cons, hstep]
    exact ih acc (fun y hy v0 hv => h y (List.mem_cons_of_mem x hy) v0 hv)

/-- When every checked preference candidate carries its desired value,
`_set_preferences` records no change and issues no write. -/
theorem set_preferences_noop (q : QbitCfg) (current : List (String × Val))
    (h : ∀ kv ∈ qbitPrefCandidates q, (dictLookup current kv.1 == some kv.2) = true) :
    _set_preferences q current = ([], []) := by
  have hsave : (dictLookup current "save_path" == some (Val.s q.defaultSavePath)) = true :=
    h ("save_path", Val.s q.defaultSavePath) (by unfold qbitPrefCandidates; simp)
  have hfold : _PREF_MAP.foldl (prefStep q current) ([], []) = ([], []) := by
    apply prefStep_foldl_noop
    intro ckak hmem v0 hv
    have hc : (ckak.2, translatePref ckak.1 v0) ∈ qbitPrefCandidates q := by
      unfold qbitPrefCandidates
      exact List.mem_cons_of_mem _ (List.mem_filterMap.mpr ⟨ckak, hmem, by rw [hv]; rfl⟩)
    exact h _ hc
  simp [_set_preferences, hsave, hfold]

/-- The categories loop collects nothing when every desired category
exists with its desired save path. -/
theorem catStep_foldl_noop (currentCats : List (String × Option String))
    (L : List (String × Option String)) (acc : List String × List QbitWrite)
    (h : ∀ cat ∈ L, (hasKey currentCats cat.1 &&
      ((dictLookup currentCats cat.1).join == some (cat.2.getD cat.1))) = true) :
    L.foldl (catStep currentCats) acc = acc := by
  induction L generalizing acc with
  | nil => rfl
  | cons x xs ih =>
    have hx := h x (List.mem_cons_self x xs)
    rw [Bool.and_eq_true] at hx
    have hx2 : ((dictLookup currentCats x.1).bind fun a => a) = some (x.2.getD x.1) := by
      simpa [Option.join] using hx.2
    have hstep : catStep currentCats acc x = acc := by
      simp [catStep, hx.1, hx2]
    rw [List.foldl_cons, hstep]
    exact ih acc (fun y hy => h y (List.mem_cons_of_mem x hy))

/-- When every configured category exists with its desired save path,
`_set_categories` records no change and issues no write. -/
theorem set_categories_noop (q : QbitCfg) (cats : List (String × Option String))
    (h : ∀ cat ∈ q.categories, (hasKey cats cat.1 &&
      ((dictLookup cats cat.1).join == some (cat.2.getD cat.1))) = true) :
    _set_categories q cats = ([], []) :=
  catStep_foldl_noop cats q.categories ([], []) h

/-- When the qBittorrent remote state matches the desired state, the
reconciler records no change and issues no write. -/
theorem configure_qbittorrent_noop (cfg : Config) (st : QbitState)
    (h : qbitMatches cfg st = true) :
    configure_qbittorrent cfg st = ([], []) := by
  rw [qbitMatches, Bool.and_eq_true] at h
  have hp := set_preferences_noop cfg.qbittorrent st.prefs (List.all_eq_true.mp h.1)
  have hc := set_categories_noop cfg.qbittorrent st.categories (List.all_eq_true.mp h.2)
  simp [configure_qbittorrent, hp, hc]

/-- An existing root folder entails no change and no write. -/
theorem ensure_root_folder_noop (inst : InstanceCfg) (folders : List String)
    (h : folders.contains inst.rootFolder = true) :
    _ensure_root_folder inst folders = ([], []) := by
  have h2 : inst.rootFolder ∈ folders := by simpa using h
  simp [_ensure_root_folder, h2]

/-- A matched download client with all compared fields equal entails no
change and no write. -/
theorem ensure_download_client_noop (catKey : String) (cfg : Config)
    (inst : InstanceCfg) (clients : List DownloadClient) (dc : DownloadClient)
    (hfind : clients.find? (fun c => c.implementation == "QBittorrent") = some dc)
    (hm : dcFieldsMatch catKey cfg inst dc.fields = true) :
    _ensure_download_client catKey cfg inst clients = ([], []) := by
  simp [_ensure_download_client, hfind,
    needsUpdate_false_of_dcFieldsMatch catKey cfg inst dc.fields hm]

/-- Media-management settings already at their desired values entail no
change and no write. -/
theorem set_media_management_noop (cfg : Config) (current : List (String × Val))
    (h : mmMatches cfg current = true) :
    _set_media_management cfg current = ([], []) := by
  rw [mmMatches, Bool.and_eq_true, Bool.and_eq_true] at h
  obtain ⟨⟨hh, ha⟩, hp⟩ := h
  simp [_set_media_management, hh, ha, hp]

/-- The tags loop collects nothing when every desired tag already exists
case-insensitively. -/
theorem tagStep_foldl_noop (existingNames : List String) (L : List String)
    (acc : List String × List ArrWrite)
    (h : ∀ t ∈ L, existingNames.contains (pyLower t) = true) :
    L.foldl (tagStep existingNames) acc = acc := by
  induction L generalizing acc with
  | nil => rfl
  | cons x xs ih =>
    have hstep : tagStep existingNames acc x = acc := by
      have h2 : pyLower x ∈ existingNames := by simpa using h x (List.mem_cons_self x xs)
      simp [tagStep, h2]
    rw [List.foldl_cons, hstep]
    exact ih acc (fun y hy => h y (List.mem_cons_of_mem x hy))

/-- All desired tags present (case-insensitively) entails no change and
no write. -/
theorem ensure_tags_noop (cfg : Config) (serviceName : String) (existingTags : List String)
    (h : ∀ t ∈ (listLookup cfg.tags serviceName).getD [],
      (existingTags.map pyLower).contains (pyLower t) = true) :
    _ensure_tags cfg serviceName existingTags = ([], []) := by
  unfold _ensure_tags
  by_cases hd : ((listLookup cfg.tags serviceName).getD []).isEmpty
  · simp [hd]
  · simp only [hd, Bool.false_eq_true, if_false]
    exact tagStep_foldl_noop (existingTags.map pyLower) _ ([], []) h

/-- When a Sonarr/Radarr remote state matches the desired state, the
shared reconciler records no change and issues no write. -/
theorem configureArr_noop (catKey : String) (cfg : Config) (serviceName : String)
    (st : ArrState) (h : arrMatches catKey cfg serviceName st = true) :
    configureArr catKey cfg serviceName st = some ([], []) := by
  unfold arrMatches at h
  split at h
  · exact absurd h (by simp)
  · next inst heq =>
    rw [Bool.and_eq_true, Bool.and_eq_true, Bool.and_eq_true] at h
    obtain ⟨⟨⟨hroot, hdc⟩, hmm⟩, htags⟩ := h
    cases hfind : st.downloadClients.find? (fun dc => dc.implementation == "QBittorrent") with
    | none => rw [hfind] at hdc; exact absurd hdc (by simp)
    | some dc =>
      rw [hfind] at hdc
      have hens := ensure_download_client_noop catKey cfg inst st.downloadClients dc hfind hdc
      have hrootl := ensure_root_folder_noop inst st.rootFolders hroot
      have hmml := set_media_management_noop cfg st.mediaManagement hmm
      have htagl := ensure_tags_noop cfg serviceName st.tags (List.all_eq_true.mp htags)
      simp [configureArr, heq, hrootl, hens, hmml, htagl]

/-- The applications loop collects nothing when every instance has a
matching application with the compared fields equal. -/
theorem prowlarrStep_foldl_noop (apps : List ProwlarrApp) (prowlarrUrl : String)
    (L : List (String × InstanceCfg)) (acc : List String × List ProwlarrWrite)
    (h : ∀ ni ∈ L, ∃ app, existingByUrl apps ni.2.url = some app ∧
      fieldLookup app.fields "baseUrl" = some (Val.s ni.2.url) ∧
      fieldLookup app.fields "prowlarrUrl" = some (Val.s prowlarrUrl)) :
    L.foldl (prowlarrStep apps prowlarrUrl) acc = acc := by
  induction L generalizing acc with
  | nil => rfl
  | cons x xs ih =>
    obtain ⟨app, happ, hb, hp⟩ := h x (List.mem_cons_self x xs)
    have hstep : prowlarrStep apps prowlarrUrl acc x = acc := by
      simp [prowlarrStep, happ, hb, hp]
    rw [List.foldl_cons, hstep]
    exact ih acc (fun y hy => h y (List.mem_cons_of_mem x hy))

/-- When the Prowlarr remote state matches the desired state, the
reconciler records no change, issues no write, and does not trigger the
indexer sync. -/
theorem configure_prowlarr_noop (cfg : Config) (apps : List ProwlarrApp)
    (h : prowlarrMatches cfg apps = true) :
    configure_prowlarr cfg apps = some ([], []) := by
  unfold prowlarrMatches at h
  split at h
  · exact absurd h (by simp)
  · next pInst heq =>
    have hfold :
        (cfg.instances.filter (fun ni => ni.2.ty == "sonarr" || ni.2.ty == "radarr")).foldl
          (prowlarrStep apps pInst.url) ([], []) = ([], []) := by
      apply prowlarrStep_foldl_noop
      intro ni hni
      have hx := List.all_eq_true.mp h ni hni
      cases hfindx : existingByUrl apps ni.2.url with
      | none => rw [hfindx] at hx; exact absurd hx (by simp)
      | some app =>
        rw [hfindx] at hx
        rw [Bool.and_eq_true] at hx
        exact ⟨app, rfl, by simpa using hx.1, by simpa using hx.2⟩
    simp [configure_prowlarr, heq, hfold]

/-- The libraries loop collects nothing when every declared library name
already exists. -/
theorem jellyfinLibStep_foldl_noop (homeDir : String) (existingNames : List String)
    (L : List LibraryDef) (acc : List String × List JellyfinWrite × Bool)
    (h : ∀ lib ∈ L, existingNames.contains lib.name = true) :
    L.foldl (jellyfinLibStep homeDir existingNames) acc = acc := by
  induction L generalizing acc with
  | nil => rfl
  | cons x xs ih =>
    have hstep : jellyfinLibStep homeDir existingNames acc x = acc := by
      have h2 : x.name ∈ existingNames := by simpa using h x (List.mem_cons_self x xs)
      simp [jellyfinLibStep, h2]
    rw [List.foldl_cons, hstep]
    exact ih acc (fun y hy => h y (List.mem_cons_of_mem x hy))

/-- When every declared Jellyfin library exists, the reconciler records
no change, issues no write, and does not trigger a refresh. -/
theorem configure_jellyfin_noop (cfg : Config) (existingNames : List String)
    (h : jellyfinMatches cfg existingNames = true) :
    configure_jellyfin cfg existingNames = some ([], []) := by
  unfold jellyfinMatches at h
  split at h
  · exact absurd h (by simp)
  · next inst heq =>
    have hfold := jellyfinLibStep_foldl_noop cfg.homeDir existingNames
      ((inst.libraries.map (fun ls => ls.map
        (fun l => (⟨l.1, l.2.1, l.2.2⟩ : LibraryDef)))).getD _DEFAULT_LIBRARIES)
      ([], [], false) (List.all_eq_true.mp h)
    simp [configure_jellyfin, heq, hfold]

/-- C1 amended: for the qbittorrent, sonarr, radarr, prowlarr and
jellyfin reconcilers, a run against a fetched current state that matches
the desired state returns an empty list of change records (the sonarr
variant is modelled from the spec, sharing the radarr algorithm with
tvCategory). The jellyseerr reconciler is excluded: it is not idempotent,
see the counterexample. -/
theorem claim_C1_idempotence (cfg : Config) (sq : QbitState) (ss sr : ArrState)
    (apps : List ProwlarrApp) (libNames : List String)
    (sonarrName radarrName : String) :
    (qbitMatches cfg sq = true → (configure_qbittorrent cfg sq).1 = []) ∧
    (arrMatches "tvCategory" cfg sonarrName ss = true →
      (configure_sonarr cfg sonarrName ss).map Prod.fst = some []) ∧
    (arrMatches "movieCategory" cfg radarrName sr = true →
      (configure_radarr cfg radarrName sr).map Prod.fst = some []) ∧
    (prowlarrMatches cfg apps = true →
      (configure_prowlarr cfg apps).map Prod.fst = some []) ∧
    (jellyfinMatches cfg libNames = true →
      (configure_jellyfin cfg libNames).map Prod.fst = some []) := by
  refine ⟨?_, ?_, ?_, ?_, ?_⟩
  · intro h
    rw [configure_qbittorrent_noop cfg sq h]
  · intro h
    rw [configure_sonarr, configureArr_noop "tvCategory" cfg sonarrName ss h]
    rfl
  · intro h
    rw [configure_radarr, configureArr_noop "movieCategory" cfg radarrName sr h]
    rfl
  · intro h
    rw [configure_prowlarr_noop cfg apps h]
    rfl
  · intro h
    rw [configure_jellyfin_noop cfg libNames h]
    rfl

/-- C1 witness: the idempotence theorem applied to a concrete
configuration and matching remote states for all five reconcilers. -/
theorem claim_C1_idempotence_witness :
    (qbitMatches cfg0 qbitState0 = true ∧ (configure_qbittorrent cfg0 qbitState0).1 = []) ∧
    (arrMatches "tvCategory" cfg0 "sonarr" sonarrState0 = true ∧
      (configure_sonarr cfg0 "sonarr" sonarrState0).map Prod.fst = some []) ∧
    (arrMatches "movieCategory" cfg0 "radarr" radarrState0 = true ∧
      (configure_radarr cfg0 "radarr" radarrState0).map Prod.fst = some []) ∧
    (prowlarrMatches cfg0 prowlarrApps0 = true ∧
      (configure_prowlarr cfg0 prowlarrApps0).map Prod.fst = some []) ∧
    (jellyfinMatches cfg0 jellyfinNames0 = true ∧
      (configure_jellyfin cfg0 jellyfinNames0).map Prod.fst = some []) :=
  ⟨⟨by decide, (claim_C1_idempotence cfg0 qbitState0 sonarrState0 radarrState0
      prowlarrApps0 jellyfinNames0 "sonarr" "radarr").1 (by decide)⟩,
   ⟨by decide, (claim_C1_idempotence cfg0 qbitState0 sonarrState0 radarrState0
      prowlarrApps0 jellyfinNames0 "sonarr" "radarr").2.1 (by decide)⟩,
   ⟨by decide, (claim_C1_idempotence cfg0 qbitState0 sonarrState0 radarrState0
      prowlarrApps0 jellyfinNames0 "sonarr" "radarr").2.2.1 (by decide)⟩,
   ⟨by decide, (claim_C1_idempotence cfg0 qbitState0 sonarrState0 radarrState0
      prowlarrApps0 jellyfinNames0 "sonarr" "radarr").2.2.2.1 (by decide)⟩,
   ⟨by decide, (claim_C1_idempotence cfg0 qbitState0 sonarrState0 radarrState0
      prowlarrApps0 jellyfinNames0 "sonarr" "radarr").2.2.2.2 (by decide)⟩⟩

/-- C1 counterexample: a Jellyseerr world whose existing connections
carry exactly the desired payloads still produces one "Updated" change
record per configured instance on every run, so the claim as stated (zero
change records for every reconciler once the remote matches) is false for
the jellyseerr reconciler. -/
theorem claim_C1_counterexample :
    jellyseerrMatches cfg0 jellyseerrWorld0 = true ∧
    (configure_jellyseerr cfg0 jellyseerrWorld0).map Prod.fst =
      some ["Updated Jellyseerr Sonarr server: sonarr",
            "Updated Jellyseerr Radarr server: radarr"] ∧
    some ["Updated Jellyseerr Sonarr server: sonarr",
          "Updated Jellyseerr Radarr server: radarr"] ≠ some ([] : List String) := by
  exact ⟨by decide, by decide, by decide⟩

/-- Rewriting the value stored under a key leaves the lookup of that key
pointing at the rewritten entry. -/
theorem find?_map_update (s : Summary) (name : String) (f : SvcInfo → SvcInfo) :
    (s.map (fun e => if e.1 == name then (e.1, f e.2) else e)).find?
        (fun e => e.1 == name) =
      (s.find? (fun e => e.1 == name)).map (fun e => (e.1, f e.2)) := by
  rw [List.find?_map]
  have hpred : ((fun e : String × SvcInfo => e.1 == name) ∘
      (fun e => if e.1 == name then (e.1, f e.2) else e)) =
      (fun e : String × SvcInfo => e.1 == name) := by
    funext e
    by_cases he : e.1 = name
    · simp [he]
    · simp [he]
  rw [hpred]
  cases hf : s.find? (fun e => e.1 == name) with
  | none => rfl
  | some e =>
    have he : e.1 = name := by simpa using List.find?_some hf
    simp [he]

/-- Rewriting the value stored under one key does not disturb lookups of
other keys. -/
theorem find?_map_update_ne (s : Summary) (name : String) (f : SvcInfo → SvcInfo)
    (m : String) (hne : m ≠ name) :
    (s.map (fun e => if e.1 == name then (e.1, f e.2) else e)).find?
        (fun e => e.1 == m) =
      s.find? (fun e => e.1 == m) := by
  rw [List.find?_map]
  have hpred : ((fun e : String × SvcInfo => e.1 == m) ∘
      (fun e => if e.1 == name then (e.1, f e.2) else e)) =
      (fun e : String × SvcInfo => e.1 == m) := by
    funext e
    by_cases he : e.1 = name
    · simp [he]
    · simp [he]
  rw [hpred]
  cases hf : s.find? (fun e => e.1 == m) with
  | none => rfl
  | some e =>
    have he : e.1 = m := by simpa using List.find?_some hf
    have hen : ¬e.1 = name := by rw [he]; exact hne
    simp [hen]

/-- Lookup in a concatenated summary prefers the left part. -/
theorem find?_append_summary (s t : Summary) (p : String × SvcInfo → Bool) :
    (s ++ t).find? p = ((s.find? p).orElse (fun _ => t.find? p)) := by
  induction s with
  | nil => rfl
  | cons a as ih =>
    cases ha : p a with
    | true =>
      rw [List.cons_append, List.find?_cons_of_pos _ ha, List.find?_cons_of_pos _ ha]
      rfl
    | false =>
      rw [List.cons_append, List.find?_cons_of_neg _ (by simp [ha]),
        List.find?_cons_of_neg _ (by simp [ha]), ih]

/-- After `_ensure`, the key is present: either its previous entry or
the fresh initial record. -/
theorem find?_ensure_self (s : Summary) (name : String) :
    (s.ensure name).find? (fun e => e.1 == name) =
      some ((s.find? (fun e => e.1 == name)).getD (name, SvcInfo.init)) := by
  unfold Summary.ensure
  cases hany : s.any (fun e => e.1 == name) with
  | true =>
    simp only [if_true]
    have hsome : (s.find? (fun e => e.1 == name)).isSome := by
      rw [List.find?_isSome]
      obtain ⟨x, hx, hpx⟩ := List.any_eq_true.mp hany
      exact ⟨x, hx, hpx⟩
    obtain ⟨e, he⟩ := Option.isSome_iff_exists.mp hsome
    simp [he]
  | false =>
    simp only [Bool.false_eq_true, if_false]
    have hnone : s.find? (fun e => e.1 == name) = none := by
      rw [List.find?_eq_none]
      intro x hx
      have := List.any_eq_false.mp hany x hx
      simpa using this
    rw [find?_append_summary, hnone]
    rw [List.find?_cons_of_pos _ (by simp)]
    rfl

/-- `_ensure` of one key does not disturb lookups of other keys. -/
theorem find?_ensure_ne (s : Summary) (name m : String) (hne : m ≠ name) :
    (s.ensure name).find? (fun e => e.1 == m) = s.find? (fun e => e.1 == m) := by
  unfold Summary.ensure
  cases hany : s.any (fun e => e.1 == name) with
  | true => rfl
  | false =>
    simp only [Bool.false_eq_true, if_false]
    rw [find?_append_summary]
    have hnm : ¬name = m := Ne.symm hne
    cases hf : s.find? (fun e => e.1 == m) with
    | some e => rfl
    | none =>
      rw [List.find?_cons_of_neg _ (by simp [hnm])]
      rfl

/-- After an update, the key holds the function applied to its previous
(or initial) record. -/
theorem find?_update_self (s : Summary) (name : String) (f : SvcInfo → SvcInfo) :
    (s.update name f).find? (fun e => e.1 == name) = some (name, f (infoOf s name)) := by
  unfold Summary.update
  rw [find?_map_update, find?_ensure_self]
  cases hf : s.find? (fun e => e.1 == name) with
  | none => simp [hf, infoOf]
  | some e =>
    have he : e.1 = name := by simpa using List.find?_some hf
    simp [hf, infoOf, he]

/-- An update of one key does not disturb lookups of other keys. -/
theorem find?_update_ne (s : Summary) (name : String) (f : SvcInfo → SvcInfo)
    (m : String) (hne : m ≠ name) :
    (s.update name f).find? (fun e => e.1 == m) = s.find? (fun e => e.1 == m) := by
  unfold Summary.update
  rw [find?_map_update_ne (s.ensure name) name f m hne, find?_ensure_ne s name m hne]

/-- The status after updating the same key. -/
theorem statusOf_update_self (s : Summary) (name : String) (f : SvcInfo → SvcInfo) :
    (s.update name f).statusOf name = some ((f (infoOf s name)).status) := by
  unfold Summary.statusOf
  rw [find?_update_self]
  rfl

/-- The status of another key is unchanged by an update. -/
theorem statusOf_update_ne (s : Summary) (name : String) (f : SvcInfo → SvcInfo)
    (m : String) (hne : m ≠ name) :
    (s.update name f).statusOf m = s.statusOf m := by
  unfold Summary.statusOf
  rw [find?_update_ne s name f m hne]

/-- The change list after updating the same key. -/
theorem changesOf_update_self (s : Summary) (name : String) (f : SvcInfo → SvcInfo) :
    (s.update name f).changesOf name = (f (infoOf s name)).changes := by
  unfold Summary.changesOf
  rw [find?_update_self]
  rfl

/-- The change list of another key is unchanged by an update. -/
theorem changesOf_update_ne (s : Summary) (name : String) (f : SvcInfo → SvcInfo)
    (m : String) (hne : m ≠ name) :
    (s.update name f).changesOf m = s.changesOf m := by
  unfold Summary.changesOf
  rw [find?_update_ne s name f m hne]

/-- Processing one service leaves the recorded status of every other
service unchanged. -/
theorem statusOf_runService_ne (requested reachable : List String)
    (outcome : String → Except String (List String)) (s : Summary) (m name : String)
    (hne : name ≠ m) :
    (runService requested reachable outcome s m).statusOf name = s.statusOf name := by
  unfold runService
  split
  · rfl
  · split
    · simp only [Summary.log_skip]
      exact statusOf_update_ne _ _ _ _ hne
    · split
      · simp only [Summary.log_skip]
        exact statusOf_update_ne _ _ _ _ hne
      · split
        · simp only [Summary.mark_success, Summary.mark_in_progress]
          rw [statusOf_update_ne _ _ _ _ hne, statusOf_update_ne _ _ _ _ hne]
        · simp only [Summary.mark_failed, Summary.mark_in_progress]
          rw [statusOf_update_ne _ _ _ _ hne, statusOf_update_ne _ _ _ _ hne]

/-- Processing one service leaves the recorded changes of every other
service unchanged. -/
theorem changesOf_runService_ne (requested reachable : List String)
    (outcome : String → Except String (List String)) (s : Summary) (m name : String)
    (hne : name ≠ m) :
    (runService requested reachable outcome s m).changesOf name = s.changesOf name := by
  unfold runService
  split
  · rfl
  · split
    · simp only [Summary.log_skip]
      exact changesOf_update_ne _ _ _ _ hne
    · split
      · simp only [Summary.log_skip]
        exact changesOf_update_ne _ _ _ _ hne
      · split
        · simp only [Summary.mark_success, Summary.mark_in_progress]
          rw [changesOf_update_ne _ _ _ _ hne, changesOf_update_ne _ _ _ _ hne]
        · simp only [Summary.mark_failed, Summary.mark_in_progress]
          rw [changesOf_update_ne _ _ _ _ hne, changesOf_update_ne _ _ _ _ hne]

/-- Processing a requested service always leaves it in a terminal
status: skipped, success or failed. -/
theorem statusOf_runService_self_terminal (requested reachable : List String)
    (outcome : String → Except String (List String)) (s : Summary) (m : String)
    (hreq : requested.contains m = true) :
    terminalStatus ((runService requested reachable outcome s m).statusOf m) := by
  unfold runService terminalStatus
  simp only [hreq, Bool.not_true, Bool.false_eq_true, if_false]
  split
  · right; right
    simp only [Summary.log_skip]
    rw [statusOf_update_self]
  · split
    · right; right
      simp only [Summary.log_skip]
      rw [statusOf_update_self]
    · split
      · left
        simp only [Summary.mark_success]
        rw [statusOf_update_self]
      · right; left
        simp only [Summary.mark_failed]
        rw [statusOf_update_self]

/-- Folding the main loop over any service list preserves and
establishes terminal status for a requested service contained in it. -/
theorem foldl_runService_terminal (requested reachable : List String)
    (outcome : String → Except String (List String)) (name : String)
    (hreq : requested.contains name = true) :
    ∀ (L : List String) (s : Summary),
      (name ∈ L ∨ terminalStatus (s.statusOf name)) →
      terminalStatus ((L.foldl (runService requested reachable outcome) s).statusOf name) := by
  intro L
  induction L with
  | nil =>
    intro s h
    rcases h with h | h
    · cases h
    · exact h
  | cons m ms ih =>
    intro s h
    rw [List.foldl_cons]
    by_cases hnm : name = m
    · subst hnm
      exact ih _ (Or.inr (statusOf_runService_self_terminal requested reachable outcome s name hreq))
    · rcases h with hmem | hterm
      · rcases List.mem_cons.mp hmem with heq | hmem2
        · exact absurd heq hnm
        · exact ih _ (Or.inl hmem2)
      · refine ih _ (Or.inr ?_)
        unfold terminalStatus
        rw [statusOf_runService_ne requested reachable outcome s m name hnm]
        exact hterm

/-- C5: every service that is requested and appears in the run loop ends
the run in exactly one terminal state — success, failed or skipped — never
pending or in progress. -/
theorem claim_C5_terminal_outcome (requested reachable : List String)
    (outcome : String → Except String (List String)) (name : String)
    (hall : ALL_SERVICES.contains name = true)
    (hreq : requested.contains name = true) :
    (main_run requested reachable outcome).statusOf name = some Status.success ∨
    (main_run requested reachable outcome).statusOf name = some Status.failed ∨
    (main_run requested reachable outcome).statusOf name = some Status.skipped := by
  have hmem : name ∈ ALL_SERVICES := by simpa using hall
  exact foldl_runService_terminal requested reachable outcome name hreq ALL_SERVICES []
    (Or.inl hmem)

/-- C5 witness: the terminal-outcome theorem applied to a concrete
requested and reachable service. -/
theorem claim_C5_terminal_outcome_witness :
    (main_run ["radarr"] ["radarr"] (fun _ => Except.ok ["x"])).statusOf "radarr" =
      some Status.success ∨
    (main_run ["radarr"] ["radarr"] (fun _ => Except.ok ["x"])).statusOf "radarr" =
      some Status.failed ∨
    (main_run ["radarr"] ["radarr"] (fun _ => Except.ok ["x"])).statusOf "radarr" =
      some Status.skipped :=
  claim_C5_terminal_outcome ["radarr"] ["radarr"] (fun _ => Except.ok ["x"]) "radarr"
    (by decide) (by decide)

/-- Updating values in place preserves the key sequence. -/
theorem keys_map_update (s : Summary) (name : String) (f : SvcInfo → SvcInfo) :
    (s.map (fun e => if e.1 == name then (e.1, f e.2) else e)).map Prod.fst =
      s.map Prod.fst := by
  rw [List.map_map]
  have hfn : (Prod.fst ∘ (fun e : String × SvcInfo =>
      if e.1 == name then (e.1, f e.2) else e)) = Prod.fst := by
    funext e
    by_cases he : e.1 = name
    · simp [he]
    · simp [he]
  rw [hfn]

/-- `_ensure` preserves distinctness of keys. -/
theorem keys_ensure_nodup (s : Summary) (name : String)
    (h : (s.map Prod.fst).Nodup) : ((s.ensure name).map Prod.fst).Nodup := by
  unfold Summary.ensure
  cases hany : s.any (fun e => e.1 == name) with
  | true => exact h
  | false =>
    simp only [Bool.false_eq_true, if_false]
    rw [List.map_append]
    refine List.Nodup.append h (by simp) ?_
    intro a ha hb
    simp only [List.map_cons, List.map_nil, List.mem_singleton] at hb
    subst hb
    obtain ⟨e, he, hfst⟩ := List.mem_map.mp ha
    have := List.any_eq_false.mp hany e he
    simp only [hfst] at this
    simp at this

/-- An update preserves distinctness of keys. -/
theorem keys_update_nodup (s : Summary) (name : String) (f : SvcInfo → SvcInfo)
    (h : (s.map Prod.fst).Nodup) : ((s.update name f).map Prod.fst).Nodup := by
  unfold Summary.update
  rw [keys_map_update (s.ensure name) name f]
  exact keys_ensure_nodup s name h

/-- Processing one service preserves distinctness of summary keys. -/
theorem runService_keys_nodup (requested reachable : List String)
    (outcome : String → Except String (List String)) (s : Summary) (m : String)
    (h : (s.map Prod.fst).Nodup) :
    ((runService requested reachable outcome s m).map Prod.fst).Nodup := by
  unfold runService
  split
  · exact h
  · split
    · exact keys_update_nodup _ _ _ h
    · split
      · exact keys_update_nodup _ _ _ h
      · split
        · exact keys_update_nodup _ _ _ (keys_update_nodup _ _ _ h)
        · exact keys_update_nodup _ _ _ (keys_update_nodup _ _ _ h)

/-- The main loop produces a summary with distinct keys. -/
theorem main_run_keys_nodup (requested reachable : List String)
    (outcome : String → Except String (List String)) :
    ((main_run requested reachable outcome).map Prod.fst).Nodup := by
  unfold main_run
  have hgen : ∀ (L : List String) (s : Summary), (s.map Prod.fst).Nodup →
      ((L.foldl (runService requested reachable outcome) s).map Prod.fst).Nodup := by
    intro L
    induction L with
    | nil => intro s h; exact h
    | cons m ms ih =>
      intro s h
      rw [List.foldl_cons]
      exact ih _ (runService_keys_nodup requested reachable outcome s m h)
  exact hgen ALL_SERVICES [] (by simp)

/-- With distinct keys, lookup of the key of a member entry returns that
entry. -/
theorem find?_key_of_mem_nodup (s : Summary) (e : String × SvcInfo)
    (he : e ∈ s) (hnd : (s.map Prod.fst).Nodup) :
    s.find? (fun x => x.1 == e.1) = some e := by
  induction s with
  | nil => cases he
  | cons a as ih =>
    rw [List.map_cons] at hnd
    obtain ⟨hnotin, htail⟩ := List.nodup_cons.mp hnd
    rcases List.mem_cons.mp he with rfl | he2
    · exact List.find?_cons_of_pos _ (by simp)
    · have hane : ¬(a.1 == e.1) = true := by
        intro hab
        have hab1 : a.1 = e.1 := by simpa using hab
        exact hnotin (hab1 ▸ List.mem_map_of_mem Prod.fst he2)
      rw [(List.find?_cons_of_neg as hane :
        List.find? (fun x => x.1 == e.1) (a :: as) =
          List.find? (fun x => x.1 == e.1) as)]
      exact ih he2 htail

/-- With distinct keys, `has_failures` holds exactly when some service
has recorded status failed. -/
theorem has_failures_iff (s : Summary) (hnd : (s.map Prod.fst).Nodup) :
    s.has_failures = true ↔ ∃ n, s.statusOf n = some Status.failed := by
  constructor
  · intro h
    obtain ⟨e, he, hst⟩ := List.any_eq_true.mp h
    refine ⟨e.1, ?_⟩
    unfold Summary.statusOf
    rw [find?_key_of_mem_nodup s e he hnd]
    have : e.2.status = Status.failed := by simpa using hst
    simp [this]
  · rintro ⟨n, hn⟩
    unfold Summary.statusOf at hn
    obtain ⟨e, hfind, hst⟩ := Option.map_eq_some'.mp hn
    exact List.any_eq_true.mpr ⟨e, List.mem_of_find?_eq_some hfind, by simp [hst]⟩

/-- A failed status after one loop iteration either predates it or
belongs to the service just processed, which was then requested and
reachable. -/
theorem statusOf_runService_failed (requested reachable : List String)
    (outcome : String → Except String (List String)) (s : Summary) (m n : String)
    (h : (runService requested reachable outcome s m).statusOf n = some Status.failed) :
    s.statusOf n = some Status.failed ∨
      (requested.contains n = true ∧ reachable.contains n = true) := by
  by_cases hnm : n = m
  · subst hnm
    by_cases hreq : requested.contains n = true
    · by_cases hreach : reachable.contains n = true
      · by_cases hfn : _CONFIGURE_FN_KEYS.contains n = true
        · rw [runService] at h
          simp only [hreq, hreach, hfn, Bool.not_true, Bool.false_eq_true, if_false] at h
          cases houty : outcome n with
          | ok changes =>
            rw [houty] at h
            simp only [Summary.mark_success] at h
            rw [statusOf_update_self] at h
            exact absurd h (by simp)
          | error e =>
            exact Or.inr ⟨hreq, hreach⟩
        · have hfn2 : _CONFIGURE_FN_KEYS.contains n = false := by
            simpa using hfn
          rw [runService] at h
          simp only [hreq, hreach, hfn2, Bool.not_true, Bool.not_false,
            Bool.false_eq_true, if_false, if_true] at h
          simp only [Summary.log_skip] at h
          rw [statusOf_update_self] at h
          exact absurd h (by simp)
      · have hreach2 : reachable.contains n = false := by simpa using hreach
        rw [runService] at h
        simp only [hreq, hreach2, Bool.not_true, Bool.not_false,
          Bool.false_eq_true, if_false, if_true] at h
        simp only [Summary.log_skip] at h
        rw [statusOf_update_self] at h
        exact absurd h (by simp)
    · have hreq2 : requested.contains n = false := by simpa using hreq
      rw [runService] at h
      simp only [hreq2, Bool.not_false, if_true] at h
      exact Or.inl h
  · rw [statusOf_runService_ne requested reachable outcome s m n hnm] at h
    exact Or.inl h

/-- Through the whole loop, a failed status can only belong to a
requested-and-reachable service. -/
theorem foldl_runService_failed (requested reachable : List String)
    (outcome : String → Except String (List String)) :
    ∀ (L : List String) (s : Summary),
      (∀ n, s.statusOf n = some Status.failed →
        requested.contains n = true ∧ reachable.contains n = true) →
      ∀ n, (L.foldl (runService requested reachable outcome) s).statusOf n =
          some Status.failed →
        requested.contains n = true ∧ reachable.contains n = true := by
  intro L
  induction L with
  | nil => intro s hinv n hn; exact hinv n hn
  | cons m ms ih =>
    intro s hinv n hn
    rw [List.foldl_cons] at hn
    refine ih _ ?_ n hn
    intro n2 hn2
    rcases statusOf_runService_failed requested reachable outcome s m n2 hn2 with hl | hr
    · exact hinv n2 hl
    · exact hr

/-- C7: the process exits 0 exactly when no service outcome is failed, and
a failed outcome can only belong to a requested-and-reachable service, so
skipped (unreachable) services never count as failures. -/
theorem claim_C7_exit_code (requested reachable : List String)
    (outcome : String → Except String (List String)) :
    ((exit_code requested reachable outcome = 0) ↔
      ∀ n, (main_run requested reachable outcome).statusOf n ≠ some Status.failed) ∧
    (∀ n, (main_run requested reachable outcome).statusOf n = some Status.failed →
      requested.contains n = true ∧ reachable.contains n = true) := by
  constructor
  · unfold exit_code
    cases hf : (main_run requested reachable outcome).has_failures with
    | true =>
      simp only [if_true]
      constructor
      · intro h; cases h
      · intro hall
        obtain ⟨n, hn⟩ := (has_failures_iff _ (main_run_keys_nodup _ _ _)).mp hf
        exact absurd hn (hall n)
    | false =>
      simp only [Bool.false_eq_true, if_false]
      constructor
      · intro _ n hn
        have : (main_run requested reachable outcome).has_failures = true :=
          (has_failures_iff _ (main_run_keys_nodup _ _ _)).mpr ⟨n, hn⟩
        rw [this] at hf
        cases hf
      · intro _; trivial
  · intro n hn
    exact foldl_runService_failed requested reachable outcome ALL_SERVICES []
      (fun n2 hn2 => by cases hn2) n hn

/-- C7 witness: the exit-code theorem applied to a run where the only
requested service is reachable and fails. -/
theorem claim_C7_exit_code_witness :
    exit_code ["sonarr"] ["sonarr"] (fun _ => Except.error "boom") ≠ 0 ∧
    (["sonarr"].contains "sonarr" = true ∧ ["sonarr"].contains "sonarr" = true) := by
  constructor
  · intro h0
    exact ((claim_C7_exit_code ["sonarr"] ["sonarr"]
      (fun _ => Except.error "boom")).1.mp h0) "sonarr" (by decide)
  · exact (claim_C7_exit_code ["sonarr"] ["sonarr"]
      (fun _ => Except.error "boom")).2 "sonarr" (by decide)

/-- The prober output contains exactly the requested services whose
probe succeeded. -/
theorem validate_contains_iff (requested : List String)
    (probe : String → Except String Unit) (n : String) :
    (validate requested probe).contains n = true ↔
      (requested.contains n = true ∧ probeOk (probe n) = true) := by
  unfold validate
  constructor
  · intro h
    have hmem : n ∈ requested.filter (fun x => probeOk (probe x)) := by simpa using h
    obtain ⟨hm, hp⟩ := List.mem_filter.mp hmem
    exact ⟨by simpa using hm, hp⟩
  · intro ⟨hm, hp⟩
    have : n ∈ requested.filter (fun x => probeOk (probe x)) :=
      List.mem_filter.mpr ⟨by simpa using hm, hp⟩
    simpa using this

/-- Processing a requested but unreachable service records it as
skipped with the change line "Skipped: unreachable". -/
theorem runService_skip_self (requested reachable : List String)
    (outcome : String → Except String (List String)) (s : Summary) (n : String)
    (hreq : requested.contains n = true) (hreach : reachable.contains n = false) :
    (runService requested reachable outcome s n).statusOf n = some Status.skipped ∧
    "Skipped: unreachable" ∈ (runService requested reachable outcome s n).changesOf n := by
  rw [runService]
  simp only [hreq, hreach, Bool.not_true, Bool.not_false, Bool.false_eq_true,
    if_false, if_true]
  simp only [Summary.log_skip]
  rw [statusOf_update_self, changesOf_update_self]
  refine ⟨rfl, ?_⟩
  simp

/-- The skipped record of an unreachable service survives the
processing of every further service. -/
theorem runService_skip_preserved (requested reachable : List String)
    (outcome : String → Except String (List String)) (s : Summary) (m n : String)
    (hreach : reachable.contains n = false)
    (hq : s.statusOf n = some Status.skipped ∧
      "Skipped: unreachable" ∈ s.changesOf n) :
    (runService requested reachable outcome s m).statusOf n = some Status.skipped ∧
    "Skipped: unreachable" ∈ (runService requested reachable outcome s m).changesOf n := by
  by_cases hnm : n = m
  · subst hnm
    by_cases hreq : requested.contains n = true
    · rw [runService]
      simp only [hreq, hreach, Bool.not_true, Bool.not_false, Bool.false_eq_true,
        if_false, if_true]
      simp only [Summary.log_skip]
      rw [statusOf_update_self, changesOf_update_self]
      refine ⟨rfl, ?_⟩
      have : "Skipped: unreachable" ∈ (infoOf s n).changes := by
        unfold infoOf Summary.changesOf at *
        cases hfind : s.find? (fun e => e.1 == n) with
        | none => rw [hfind] at hq; simp at hq
        | some e => rw [hfind] at hq; simpa using hq.2
      simp only [List.mem_append]
      exact Or.inl this
    · have hreq2 : requested.contains n = false := by simpa using hreq
      rw [runService]
      simp only [hreq2, Bool.not_false, if_true]
      exact hq
  · rw [statusOf_runService_ne requested reachable outcome s m n hnm,
      changesOf_runService_ne requested reachable outcome s m n hnm]
    exact hq

/-- Folding the main loop over a list containing an unreachable
requested service leaves it recorded as skipped. -/
theorem foldl_runService_skip (requested reachable : List String)
    (outcome : String → Except String (List String)) (n : String)
    (hreq : requested.contains n = true) (hreach : reachable.contains n = false) :
    ∀ (L : List String) (s : Summary),
      (n ∈ L ∨ (s.statusOf n = some Status.skipped ∧
        "Skipped: unreachable" ∈ s.changesOf n)) →
      ((L.foldl (runService requested reachable outcome) s).statusOf n =
          some Status.skipped ∧
        "Skipped: unreachable" ∈
          (L.foldl (runService requested reachable outcome) s).changesOf n) := by
  intro L
  induction L with
  | nil =>
    intro s h
    rcases h with h | h
    · cases h
    · exact h
  | cons m ms ih =>
    intro s h
    rw [List.foldl_cons]
    by_cases hnm : n = m
    · subst hnm
      exact ih _ (Or.inr (runService_skip_self requested reachable outcome s n hreq hreach))
    · rcases h with hmem | hterm
      · rcases List.mem_cons.mp hmem with heq | hmem2
        · exact absurd heq hnm
        · exact ih _ (Or.inl hmem2)
      · exact ih _ (Or.inr
          (runService_skip_preserved requested reachable outcome s m n hreach hterm))

/-- C8: the connectivity prober returns exactly the requested services
whose probe succeeded (a subset of the requested set, the total filter
never raising), and a requested service whose probe failed is recorded by
the orchestrator as skipped with the change line "Skipped: unreachable". -/
theorem claim_C8_validate_subset (requested : List String)
    (probe : String → Except String Unit)
    (outcome : String → Except String (List String)) (n : String) :
    (∀ m, (validate requested probe).contains m = true →
      requested.contains m = true) ∧
    ((validate requested probe).contains n = true ↔
      (requested.contains n = true ∧ probeOk (probe n) = true)) ∧
    (ALL_SERVICES.contains n = true → requested.contains n = true →
      probeOk (probe n) = false →
      (main_run requested (validate requested probe) outcome).statusOf n =
          some Status.skipped ∧
        "Skipped: unreachable" ∈
          (main_run requested (validate requested probe) outcome).changesOf n) := by
  refine ⟨?_, validate_contains_iff requested probe n, ?_⟩
  · intro m hm
    exact ((validate_contains_iff requested probe m).mp hm).1
  · intro hall hreq hp
    have hreach : (validate requested probe).contains n = false := by
      cases hv : (validate requested probe).contains n with
      | false => rfl
      | true =>
        have := ((validate_contains_iff requested probe n).mp hv).2
        rw [this] at hp
        cases hp
    have hmem : n ∈ ALL_SERVICES := by simpa using hall
    exact foldl_runService_skip requested (validate requested probe) outcome n
      hreq hreach ALL_SERVICES [] (Or.inl hmem)

/-- C8 witness: the prober theorem applied to a single requested service
whose probe raises. -/
theorem claim_C8_validate_subset_witness :
    (main_run ["sonarr"] (validate ["sonarr"] (fun _ => Except.error "down"))
        (fun _ => Except.ok [])).statusOf "sonarr" = some Status.skipped ∧
    "Skipped: unreachable" ∈
      (main_run ["sonarr"] (validate ["sonarr"] (fun _ => Except.error "down"))
        (fun _ => Except.ok [])).changesOf "sonarr" :=
  (claim_C8_validate_subset ["sonarr"] (fun _ => Except.error "down")
    (fun _ => Except.ok []) "sonarr").2.2 (by decide) (by decide) (by decide)
